import Mathlib

/-!
The flipApp API gateway: routing, authentication and forwarding.

A shallow embedding of `api-gateway/main.go`.  Go strings are Lean `String`s (the
operations used here, splitting on `/` and testing or trimming an ASCII prefix,
act the same on bytes and on code points).  The gin request context and the two
package-level variables `serviceRegistry` and `jwtSecret` are carried in an
explicit state record; handlers are functions on that state.  The reverse proxy,
the primitives of the JWT library, the Consul client and the URL parser are
parameters.  The routes and the service names of the six backends are taken from
their `main.go`.
-/

set_option autoImplicit false

namespace FlipApp

/-! ## Package `strings` of the Go standard library -/

namespace strings

/-- Cut a list of characters at every occurrence of `sep`.  The result is never
empty: a text without `sep` (also the empty text) is a single segment. -/
def splitChars (sep : Char) : List Char → List (List Char)
  | [] => [[]]
  | c :: cs =>
    if c = sep then [] :: splitChars sep cs
    else
      match splitChars sep cs with
      | [] => [[c]]
      | seg :: rest => (c :: seg) :: rest

/-- The call `strings.Split(s, sep)` for a separator of one character. -/
def Split (s : String) (sep : Char) : List String :=
  (splitChars sep s.data).map String.mk

/-- The call `strings.HasPrefix(s, p)`. -/
def HasPrefix (s p : String) : Bool :=
  p.data.isPrefixOf s.data

/-- The call `strings.TrimPrefix(s, p)`: `s` without the leading `p` when it has
one, and `s` itself otherwise. -/
def TrimPrefix (s p : String) : String :=
  if HasPrefix s p then String.mk (s.data.drop p.data.length) else s

/-- The call `strings.HasSuffix(s, p)`. -/
def HasSuffix (s p : String) : Bool :=
  p.data.isSuffixOf s.data

end strings

/-! ## Data model: URLs, requests, responses, the gin context -/

/-- The fields of `net/url.URL` that the gateway reads or writes. -/
structure URL where
  Scheme : String
  Host : String
  Path : String
  deriving DecidableEq, Repr

/-- The fields of `net/http.Request` that the gateway reads or writes.  `Header`
lists the header fields under their canonical names. -/
structure Request where
  Method : String
  URL : URL
  Header : List (String × String)
  deriving DecidableEq, Repr

/-- A `gin.H` object with text values, as the gateway builds them. -/
abbrev H := List (String × String)

/-- What a response carries: a JSON object written by `c.JSON`, or bytes written
by somebody else (the reverse proxy). -/
inductive Body
  | json (obj : H)
  | raw (bytes : String)
  deriving DecidableEq, Repr

/-- One response written to the client: status code and body. -/
structure Response where
  code : Nat
  body : Body
  deriving DecidableEq, Repr

/-- The `gin.Context` of one request: the request, everything written to
`c.Writer` so far (oldest first), the key/value store of `c.Set`, and whether
`c.Abort` was called. -/
structure Context where
  Request : Request
  Writer : List Response
  Keys : List (String × String)
  aborted : Bool
  deriving DecidableEq, Repr

/-- The service registry: `map[string]*url.URL` as an association list with
unique keys; the first entry for a key is the one a lookup sees. -/
abbrev Registry := List (String × URL)

/-- A byte slice. -/
abbrev Bytes := List (Fin 256)

/-- The state a handler runs in: the package-level variables `serviceRegistry`
and `jwtSecret`, and the context `c` of the request being served. -/
structure State where
  serviceRegistry : Registry
  jwtSecret : Bytes
  c : Context
  deriving DecidableEq, Repr

namespace Context

/-- The call `c.GetHeader(key)`: the first value of the header, or `""` when the
request has no such header. -/
def GetHeader (c : Context) (key : String) : String :=
  (c.Request.Header.lookup key).getD ""

/-- The call `c.JSON(code, obj)`: write a response with that status and body. -/
def JSON (c : Context) (code : Nat) (obj : H) : Context :=
  { c with Writer := c.Writer ++ [⟨code, .json obj⟩] }

/-- The call `c.Abort()`: no handler that has not started yet will run. -/
def Abort (c : Context) : Context :=
  { c with aborted := true }

/-- The call `c.Set(key, value)`: store `value` under `key`, replacing what was
stored there. -/
def Set (c : Context) (key value : String) : Context :=
  { c with Keys := (key, value) :: c.Keys.filter (fun kv => kv.1 != key) }

/-- The call `c.Get(key)`. -/
def Get (c : Context) (key : String) : Option String :=
  c.Keys.lookup key

/-- The assignment `c.Request.URL.Path = p`. -/
def setPath (c : Context) (p : String) : Context :=
  { c with Request := { c.Request with URL := { c.Request.URL with Path := p } } }

end Context

/-- Status codes of `net/http`. -/
def StatusBadRequest : Nat := 400
/-- Status codes of `net/http`. -/
def StatusUnauthorized : Nat := 401
/-- Status codes of `net/http`. -/
def StatusServiceUnavailable : Nat := 503

/-! ## The routing handler -/

/-- The reverse proxy as a parameter: `proxy.ServeHTTP(c.Writer, c.Request)` for
the proxy built on a target URL.  It receives the writer and the request by
reference, so it may write any responses and may change the request. -/
abbrev ReverseProxy := URL → List Response → Request → List Response × Request

/-- Lines 184 to 193 of `proxyHandler`: the service name for the resource
segment `seg`, suffixing first and then correcting the three plurals. -/
def serviceNameOf (seg : String) : String :=
  let serviceName := seg ++ "-service"
  if serviceName = "properties-service" then "property-service"
  else if serviceName = "users-service" then "user-service"
  else if serviceName = "projects-service" then "project-service"
  else serviceName

/-- The message of the 503 answer, `fmt.Sprintf("Service '%s' not available", name)`. -/
def notAvailable (serviceName : String) : String :=
  "Service '" ++ serviceName ++ "' not available"

/-- Lines 177 to 193 of `proxyHandler`, the routing step: split the path, refuse
it when it has fewer than three segments, and name the service after the third
segment otherwise. -/
def route (path : String) : Option String :=
  let pathSegments := strings.Split path '/'
  if h : pathSegments.length < 3 then none
  else
    have h2 : 2 < pathSegments.length := by omega
    some (serviceNameOf pathSegments[2])

/-- The handler `proxyHandler`: find the target service from the path and forward
the request to it.  The deferred assignment that restores the path runs after
the proxy call, as the last step. -/
def proxyHandler (proxy : ReverseProxy) (s : State) : State :=
  match route s.c.Request.URL.Path with
  | none =>
    { s with c := s.c.JSON StatusBadRequest [("error", "Invalid request path")] }
  | some serviceName =>
    match s.serviceRegistry.lookup serviceName with
    | none =>
      { s with c := s.c.JSON StatusServiceUnavailable [("error", notAvailable serviceName)] }
    | some targetURL =>
      let originalPath := s.c.Request.URL.Path
      let c1 := s.c.setPath (strings.TrimPrefix originalPath "/api")
      let served := proxy targetURL c1.Writer c1.Request
      let c2 : Context := { c1 with Writer := served.1, Request := served.2 }
      { s with c := c2.setPath originalPath }

/-! ## The JWT library (`github.com/golang-jwt/jwt/v5`)

The library is not part of the repository.  Its parser is modelled step by step
as its documentation describes it; base64 and JSON decoding and the HMAC
function are parameters. -/

namespace jwt

/-- The struct `CustomClaims` of the gateway: the two custom fields and the
fields of the embedded `jwt.RegisteredClaims` (times as instants on one axis,
absent when the token does not carry the claim). -/
structure CustomClaims where
  UserID : String
  Email : String
  Issuer : String
  Subject : String
  ExpiresAt : Option Int
  NotBefore : Option Int
  IssuedAt : Option Int
  deriving DecidableEq, Repr

/-- The signing methods the library registers: the HMAC family, `none`, and the
public-key families (RSA, RSA-PSS, ECDSA, EdDSA). -/
inductive SigningMethod
  | HMAC (alg : String)
  | None
  | PublicKey (alg : String)
  deriving DecidableEq, Repr

/-- The table behind `jwt.GetSigningMethod(alg)`. -/
def GetSigningMethod (alg : String) : Option SigningMethod :=
  if alg ∈ ["HS256", "HS384", "HS512"] then some (.HMAC alg)
  else if alg = "none" then some .None
  else if alg ∈ ["RS256", "RS384", "RS512", "PS256", "PS384", "PS512",
      "ES256", "ES384", "ES512", "EdDSA"] then some (.PublicKey alg)
  else none

/-- The primitives the parser is built on: base64url decoding of a segment, JSON
decoding of the header (giving the `alg` entry when it is a string) and of the
claims, and the HMAC of a text under a key for a given algorithm. -/
structure Primitives where
  DecodeSegment : String → Option Bytes
  UnmarshalHeader : Bytes → Option (Option String)
  UnmarshalClaims : Bytes → Option CustomClaims
  hmacSum : String → Bytes → String → Bytes

/-- What a claims check can find wrong (`ErrTokenExpired`, `ErrTokenNotValidYet`). -/
inductive ClaimError
  | Expired
  | NotValidYet
  deriving DecidableEq, Repr

/-- The errors of the parser. -/
inductive Error
  | TokenMalformed
  | TokenUnverifiable
  | TokenSignatureInvalid
  | TokenInvalidClaims (errs : List ClaimError)
  deriving DecidableEq, Repr

deriving instance DecidableEq for Except

/-- The struct `jwt.Token`. -/
structure Token where
  Raw : String
  Method : SigningMethod
  Claims : CustomClaims
  Signature : Bytes
  Valid : Bool
  deriving DecidableEq, Repr

/-- The method `Verify(signingString, sig, key)` for a key that is a byte slice:
`true` stands for a nil error.  An HMAC method compares the signature with the
MAC; `none` wants the special constant as key and a public-key method wants a
public key, so both refuse a byte slice. -/
def SigningMethod.Verify (P : Primitives) (m : SigningMethod) (signingString : String)
    (sig key : Bytes) : Bool :=
  match m with
  | .HMAC alg => decide (sig = P.hmacSum alg key signingString)
  | .None => false
  | .PublicKey _ => false

/-- The method `Parser.ParseUnverified`: three segments, a header and claims that
decode, and a registered signing method. -/
def ParseUnverified (P : Primitives) (tokenString : String) :
    Except Error (Token × String × String × String) :=
  match strings.Split tokenString '.' with
  | [p0, p1, p2] =>
    match P.DecodeSegment p0 with
    | none => .error .TokenMalformed
    | some headerBytes =>
      match P.UnmarshalHeader headerBytes with
      | none => .error .TokenMalformed
      | some header =>
        match P.DecodeSegment p1 with
        | none => .error .TokenMalformed
        | some claimBytes =>
          match P.UnmarshalClaims claimBytes with
          | none => .error .TokenMalformed
          | some claims =>
            match header with
            | none => .error .TokenUnverifiable
            | some alg =>
              match GetSigningMethod alg with
              | none => .error .TokenUnverifiable
              | some method =>
                .ok (⟨tokenString, method, claims, [], false⟩, p0, p1, p2)
  | _ => .error .TokenMalformed

/-- The method `Validator.Validate` with the default options, at the instant
`now`: `exp` must lie after `now`, `nbf` must not lie after `now`; a claim the
token does not carry is not checked. -/
def Validate (now : Int) (claims : CustomClaims) : List ClaimError :=
  (match claims.ExpiresAt with
    | some exp => if now < exp then [] else [.Expired]
    | none => []) ++
  (match claims.NotBefore with
    | some nbf => if now < nbf then [.NotValidYet] else []
    | none => [])

/-- The function `jwt.ParseWithClaims(tokenString, &CustomClaims{}, keyFunc)`:
parse, ask `keyFunc` for the key, decode and verify the signature, validate the
claims, and only then mark the token valid. -/
def ParseWithClaims (P : Primitives) (now : Int) (tokenString : String)
    (keyFunc : Token → Except Error Bytes) : Except Error Token :=
  match ParseUnverified P tokenString with
  | .error e => .error e
  | .ok (token, p0, p1, p2) =>
    match keyFunc token with
    | .error _ => .error .TokenUnverifiable
    | .ok key =>
      match P.DecodeSegment p2 with
      | none => .error .TokenMalformed
      | some sig =>
        if token.Method.Verify P (p0 ++ "." ++ p1) sig key then
          match Validate now token.Claims with
          | [] => .ok { token with Signature := sig, Valid := true }
          | e :: es => .error (.TokenInvalidClaims (e :: es))
        else .error .TokenSignatureInvalid

end jwt

/-! ## The authentication middleware -/

/-- The handler returned by `authMiddleware()`.  `next` stands for `c.Next()`: it
runs the handlers that follow in the chain.  `now` is the instant at which the
token is validated. -/
def authMiddleware (P : jwt.Primitives) (now : Int) (next : State → State) (s : State) :
    State :=
  let authHeader := s.c.GetHeader "Authorization"
  if authHeader = "" then
    { s with c := (s.c.JSON StatusUnauthorized
        [("error", "Authorization header required")]).Abort }
  else if !strings.HasPrefix authHeader "Bearer " then
    { s with c := (s.c.JSON StatusUnauthorized [("error", "Bearer token required")]).Abort }
  else
    let tokenString := strings.TrimPrefix authHeader "Bearer "
    match jwt.ParseWithClaims P now tokenString (fun _ => .ok s.jwtSecret) with
    | .error _ =>
      { s with c := (s.c.JSON StatusUnauthorized
          [("error", "Invalid or expired token")]).Abort }
    | .ok token =>
      if !token.Valid then
        { s with c := (s.c.JSON StatusUnauthorized
            [("error", "Invalid or expired token")]).Abort }
      else
        let c1 := (s.c.Set "userId" token.Claims.UserID).Set "userEmail" token.Claims.Email
        next { s with c := c1 }

/-- The chain of the protected routes of `main`: `authMiddleware()` first, then
`proxyHandler`. -/
def protectedChain (P : jwt.Primitives) (now : Int) (proxy : ReverseProxy) (s : State) :
    State :=
  authMiddleware P now (proxyHandler proxy) s

/-! ## The naming table as the specification words it -/

/-- The override table of the specification: `properties`, `users` and `projects`
have their own service names, every other resource gets the suffix. -/
def specServiceName (r : String) : String :=
  if r = "properties" then "property-service"
  else if r = "users" then "user-service"
  else if r = "projects" then "project-service"
  else r ++ "-service"

/-! ## States the handlers leave, named for the statements below -/

/-- The request handed to the proxy when the path `fwd` is forwarded. -/
def withPath (r : Request) (fwd : String) : Request :=
  { r with URL := { r.URL with Path := fwd } }

/-- The state `proxyHandler` leaves when it forwards the path `fwd` to `target`:
what the proxy wrote and did to the request, with the path `orig` put back. -/
def forwarded (proxy : ReverseProxy) (s : State) (target : URL) (fwd orig : String) : State :=
  let served := proxy target s.c.Writer (withPath s.c.Request fwd)
  let c2 : Context := { s.c with Writer := served.1, Request := served.2 }
  { s with c := c2.setPath orig }

/-- The components of a path that are not empty, in order. -/
def nonEmptyComponents (path : String) : List String :=
  (strings.Split path '/').filter (fun seg => seg != "")

/-- The state `authMiddleware` leaves when it refuses a token. -/
def invalidToken (s : State) : State :=
  { s with c := (s.c.JSON 401 [("error", "Invalid or expired token")]).Abort }

/-! ## Service discovery

The Consul client and `url.Parse` are parameters: the client by the answers it
gives to the two queries, the parser by the URL it returns, if any. -/

namespace consul

/-- The fields of `api.AgentService` that the gateway reads. -/
structure AgentService where
  Address : String
  Port : Int
  deriving DecidableEq, Repr

/-- The struct `api.ServiceEntry`, of which the gateway reads `Service`. -/
structure ServiceEntry where
  Service : AgentService
  deriving DecidableEq, Repr

/-- The client by its answers.  `CatalogServices` is `client.Catalog().Services(nil)`:
the names that are the keys of the map it returns, in the order the `range` loop
visits them, or an error.  `HealthService name` is
`client.Health().Service(name, "", true, nil)`: the instances passing their
checks, or an error. -/
structure Client where
  CatalogServices : Except String (List String)
  HealthService : String → Except String (List ServiceEntry)

end consul

/-- The text `fmt.Sprintf("http://%s:%d", instance.Address, instance.Port)`. -/
def locationText (inst : consul.AgentService) : String :=
  "http://" ++ inst.Address ++ ":" ++ toString inst.Port

/-- The assignment `serviceRegistry[name] = serviceURL`. -/
def Registry.store (reg : Registry) (name : String) (serviceURL : URL) : Registry :=
  (name, serviceURL) :: reg.filter (fun e => e.1 != name)

/-- The body of the loop of `discoverServices` for one service name. -/
def discoverStep (client : consul.Client) (parse : String → Option URL) (reg : Registry)
    (name : String) : Registry :=
  if strings.HasSuffix name "-service" then
    match client.HealthService name with
    | .error _ => reg
    | .ok [] => reg
    | .ok (entry :: _) =>
      let inst := entry.Service
      match parse (locationText inst) with
      | none => reg
      | some serviceURL => Registry.store reg name serviceURL
  else reg

/-- The function `discoverServices`, as a function on the variable
`serviceRegistry`. -/
def discoverServices (client : consul.Client) (parse : String → Option URL)
    (serviceRegistry : Registry) : Registry :=
  match client.CatalogServices with
  | .error _ => serviceRegistry
  | .ok services => services.foldl (discoverStep client parse) serviceRegistry

/-- The method `URL.Hostname()`: the host without the port. -/
def URL.Hostname (u : URL) : String :=
  let cs := u.Host.data
  if ':' ∈ cs then
    if ']' ∈ cs then strings.TrimPrefix (String.mk (cs.takeWhile (fun ch => ch != ']'))) "["
    else String.mk (cs.takeWhile (fun ch => ch != ':'))
  else u.Host

/-! ## The reverse proxy of `net/http/httputil` with its default error handler -/

/-- The transport of the proxy: the response of the backend to the outgoing
request, or nothing when the backend cannot be reached or times out. -/
abbrev Transport := Request → Option Response

/-- The status `http.StatusBadGateway`. -/
def StatusBadGateway : Nat := 502

/-- The helper `singleJoiningSlash` of `httputil`. -/
def singleJoiningSlash (a b : String) : String :=
  let aslash := strings.HasSuffix a "/"
  let bslash := strings.HasPrefix b "/"
  if aslash && bslash then a ++ strings.TrimPrefix b "/"
  else if !aslash && !bslash then a ++ "/" ++ b
  else a ++ b

/-- The proxy `httputil.NewSingleHostReverseProxy(target)` over a transport, for
paths that need no escaping.  It works on a copy of the request, which it sends
to the scheme and host of the target; it copies the response of the backend to
the writer, and when the transport fails its default error handler answers
`502 Bad Gateway` with an empty body. -/
def NewSingleHostReverseProxy (transport : Transport) : ReverseProxy :=
  fun target w r =>
    let outreq : Request :=
      { r with URL := ⟨target.Scheme, target.Host, singleJoiningSlash target.Path r.URL.Path⟩ }
    match transport outreq with
    | some resp => (w ++ [resp], r)
    | none => (w ++ [⟨StatusBadGateway, .raw ""⟩], r)

/-! ## Routes: how gin matches a path, and the routes each program registers -/

namespace gin

/-- Match the segments of a route against the segments of a path: a segment
`:name` takes one segment that is not empty, a segment `*name` takes all that
is left, every other segment takes itself. -/
def matchSegments : List String → List String → Bool
  | [], [] => true
  | [], _ :: _ => false
  | _ :: _, [] => false
  | p :: ps, x :: xs =>
    if strings.HasPrefix p "*" then true
    else if strings.HasPrefix p ":" then x != "" && matchSegments ps xs
    else p == x && matchSegments ps xs

/-- Whether the route `pattern` takes the request path `path`. -/
def matchPath (pattern path : String) : Bool :=
  matchSegments (strings.Split pattern '/') (strings.Split path '/')

/-- A registered route: the method and the full path. -/
structure RouteInfo where
  Method : String
  Path : String
  deriving DecidableEq, Repr

/-- The routes `group.METHOD(relativePath, ...)` of `router.Group(basePath)`, for
the base and relative paths used here, which join by concatenation. -/
def Group (basePath : String) (routes : List (String × String)) : List RouteInfo :=
  routes.map (fun r => ⟨r.1, basePath ++ r.2⟩)

/-- Whether one of the routes takes the method and the path. -/
def handles (routes : List RouteInfo) (method path : String) : Bool :=
  routes.any (fun r => r.Method == method && matchPath r.Path path)

end gin

/-- The public routes of the gateway's `main`: their chain is `proxyHandler`. -/
def publicRoutes : List gin.RouteInfo :=
  gin.Group "/api"
    [("POST", "/auth/register"), ("POST", "/auth/login"), ("POST", "/auth/validate"),
     ("POST", "/auth/refresh"), ("POST", "/auth/logout")]

/-- The protected routes of the gateway's `main`: their chain is
`authMiddleware()` and then `proxyHandler`. -/
def protectedRoutes : List gin.RouteInfo :=
  gin.Group "/api"
    [("GET", "/users/*userPath"), ("POST", "/users/*userPath"),
     ("GET", "/properties/*propertyPath"), ("POST", "/properties/*propertyPath"),
     ("GET", "/projects/*projectPath"), ("POST", "/projects/*projectPath"),
     ("GET", "/gallery/*galleryPath"), ("POST", "/gallery/*galleryPath"),
     ("GET", "/chat/*chatPath"), ("POST", "/chat/*chatPath")]

/-- The gateway serving one request whose method and path a registered route
takes: the chain of that route is run.  The answer is `none` when no route takes
the request; gin then answers by itself, which is not modelled. -/
def gateway (P : jwt.Primitives) (now : Int) (proxy : ReverseProxy) (s : State) :
    Option State :=
  if gin.handles publicRoutes s.c.Request.Method s.c.Request.URL.Path then
    some (proxyHandler proxy s)
  else if gin.handles protectedRoutes s.c.Request.Method s.c.Request.URL.Path then
    some (protectedChain P now proxy s)
  else none

namespace authService
/-- The constant `SERVICE_NAME` of `auth-service/main.go`. -/
def SERVICE_NAME : String := "auth-service"
/-- The routes registered in `main` of `auth-service/main.go`. -/
def routes : List gin.RouteInfo :=
  ⟨"GET", "/health"⟩ :: gin.Group "/auth"
    [("POST", "/register"), ("POST", "/login"), ("POST", "/refresh"), ("POST", "/logout"),
     ("POST", "/validate")]
end authService

namespace userService
/-- The constant `SERVICE_NAME` of `user-service/main.go`. -/
def SERVICE_NAME : String := "user-service"
/-- The routes registered in `main` of `user-service/main.go`. -/
def routes : List gin.RouteInfo :=
  ⟨"GET", "/health"⟩ :: gin.Group "/users"
    [("POST", ""), ("GET", "/:userId"), ("PUT", "/:userId"), ("GET", "")]
end userService

namespace propertyService
/-- The constant `SERVICE_NAME` of `property-service/main.go`. -/
def SERVICE_NAME : String := "property-service"
/-- The routes registered in `main` of `property-service/main.go`. -/
def routes : List gin.RouteInfo :=
  ⟨"GET", "/health"⟩ :: gin.Group "/properties"
    [("POST", ""), ("GET", "/:propertyId"), ("PUT", "/:propertyId"), ("GET", "")]
end propertyService

namespace projectService
/-- The constant `SERVICE_NAME` of `project-service/main.go`. -/
def SERVICE_NAME : String := "project-service"
/-- The routes registered in `main` of `project-service/main.go`. -/
def routes : List gin.RouteInfo :=
  ⟨"GET", "/health"⟩ :: gin.Group "/projects"
    [("POST", ""), ("GET", "/:projectId"), ("PUT", "/:projectId/status"), ("GET", ""),
     ("POST", "/:projectId/members"), ("GET", "/:projectId/members")]
end projectService

namespace galleryService
/-- The constant `SERVICE_NAME` of `gallery-service/main.go`. -/
def SERVICE_NAME : String := "gallery-service"
/-- The routes registered in `main` of `gallery-service/main.go`. -/
def routes : List gin.RouteInfo :=
  [⟨"GET", "/health"⟩, ⟨"POST", "/images"⟩, ⟨"GET", "/images/:imageId"⟩,
   ⟨"GET", "/properties/:propertyId/images"⟩, ⟨"POST", "/albums"⟩,
   ⟨"GET", "/albums/:albumId"⟩, ⟨"POST", "/albums/:albumId/images"⟩]
end galleryService

namespace chatService
/-- The constant `SERVICE_NAME` of `chat-service/main.go`. -/
def SERVICE_NAME : String := "chat-service"
/-- The routes registered in `main` of `chat-service/main.go`. -/
def routes : List gin.RouteInfo :=
  ⟨"GET", "/health"⟩ :: gin.Group "/conversations"
    [("POST", ""), ("POST", "/:conversationId/messages"),
     ("GET", "/:conversationId/messages")]
end chatService

/-- The backends by the resource segment the gateway serves them under: the name
each registers with Consul (`Name: SERVICE_NAME`) and its routes. -/
def backends : List (String × String × List gin.RouteInfo) :=
  [("auth", authService.SERVICE_NAME, authService.routes),
   ("users", userService.SERVICE_NAME, userService.routes),
   ("properties", propertyService.SERVICE_NAME, propertyService.routes),
   ("projects", projectService.SERVICE_NAME, projectService.routes),
   ("gallery", galleryService.SERVICE_NAME, galleryService.routes),
   ("chat", chatService.SERVICE_NAME, chatService.routes)]

/-! ## The registry as the specification words it -/

/-- The first instance the health query for `name` returns, when the query
succeeds with at least one passing instance. -/
def firstHealthy (client : consul.Client) (name : String) : Option consul.AgentService :=
  match client.HealthService name with
  | .ok (entry :: _) => some entry.Service
  | _ => none

/-- The location discovery finds for `name`: for a name that ends in `-service`
and has a first healthy instance, what the parser makes of
`http://<address>:<port>` of that instance. -/
def discoveredLocation (client : consul.Client) (parse : String → Option URL)
    (name : String) : Option URL :=
  if strings.HasSuffix name "-service" then
    (firstHealthy client name).bind (fun inst => parse (locationText inst))
  else none

/-- The mapping of the specification over the listed names: a listed name goes to
its discovered location, every other name has no entry. -/
def specRegistry (client : consul.Client) (parse : String → Option URL)
    (names : List String) (name : String) : Option URL :=
  if name ∈ names then discoveredLocation client parse name else none

/-! ## Sample states and proxies -/

/-- A request with the given path and `Authorization` header values. -/
def sampleRequest (path : String) (auth : List String) : Request :=
  ⟨"GET", ⟨"", "", path⟩, auth.map (fun v => ("Authorization", v))⟩

/-- A state with the given registry serving a fresh context for the request. -/
def sampleState (reg : Registry) (path : String) (auth : List String) : State :=
  ⟨reg, [1, 2, 3], ⟨sampleRequest path auth, [], [], false⟩⟩

/-- A proxy that answers 200 with the path it was handed, and leaves the request
as it is. -/
def echoProxy : ReverseProxy :=
  fun _ w r => (w ++ [⟨200, .raw r.URL.Path⟩], r)

/-- A proxy that answers 200 and overwrites the path of the request. -/
def scribblingProxy : ReverseProxy :=
  fun _ w r => (w ++ [⟨200, .raw "ok"⟩], { r with URL := { r.URL with Path := "/scribbled" } })

/-- A proxy whose backend cannot be reached: it answers 502 with an empty body. -/
def failingProxy : ReverseProxy :=
  fun _ w r => (w ++ [⟨502, .raw ""⟩], r)

/-- A registry with one entry. -/
def userRegistry : Registry := [("user-service", ⟨"http", "10.0.0.5:8081", ""⟩)]

/-- The claims of the sample tokens: valid from instant 10 up to instant 100. -/
def sampleClaims : jwt.CustomClaims :=
  ⟨"u-17", "ann@example.org", "flipapp-auth-service", "", some 100, some 10, some 10⟩

/-- Toy primitives for the sample tokens.  Header `h256` says `HS256`, `hnone`
says `none`; claims `cgood` are `sampleClaims`, `cexp` the same with `exp` at 5,
`cnbf` the same with `nbf` at 90; the MAC of every text is the byte 42, which
`sig` decodes to. -/
def samplePrimitives : jwt.Primitives where
  DecodeSegment := fun seg =>
    if seg = "h256" then some [1] else if seg = "hnone" then some [2]
    else if seg = "cgood" then some [10] else if seg = "cexp" then some [11]
    else if seg = "cnbf" then some [12]
    else if seg = "sig" then some [42] else if seg = "bad" then some [43]
    else if seg = "" then some [] else none
  UnmarshalHeader := fun bytes =>
    if bytes = [1] then some (some "HS256") else if bytes = [2] then some (some "none")
    else none
  UnmarshalClaims := fun bytes =>
    if bytes = [10] then some sampleClaims
    else if bytes = [11] then some { sampleClaims with ExpiresAt := some 5 }
    else if bytes = [12] then some { sampleClaims with NotBefore := some 90 }
    else none
  hmacSum := fun _ _ _ => [42]

/-- The results of `url.Parse` on the texts of the samples: a host with a port
and an empty host with a port parse; every other text of the samples has a blank
in the host and is refused. -/
def sampleParse (rawURL : String) : Option URL :=
  if rawURL = "http://10.0.0.5:8081" then some ⟨"http", "10.0.0.5:8081", ""⟩
  else if rawURL = "http://:8081" then some ⟨"http", ":8081", ""⟩
  else none

/-- A client that lists `consul` and `user-service` and answers the health query
for every name with the one instance given. -/
def sampleClient (address : String) (port : Int) : consul.Client where
  CatalogServices := .ok ["consul", "user-service"]
  HealthService := fun _ => .ok [⟨⟨address, port⟩⟩]

/-- A client that lists three services: the health query fails for
`chat-service`, finds no passing instance of `gallery-service`, and finds two
instances of `user-service`. -/
def partialClient : consul.Client where
  CatalogServices := .ok ["chat-service", "user-service", "gallery-service"]
  HealthService := fun name =>
    if name = "chat-service" then .error "connection refused"
    else if name = "gallery-service" then .ok []
    else .ok [⟨⟨"10.0.0.5", 8081⟩⟩, ⟨⟨"10.0.0.6", 8081⟩⟩]

/-- A client whose discovery backend cannot be reached. -/
def downClient : consul.Client where
  CatalogServices := .error "connection refused"
  HealthService := fun _ => .error "connection refused"

/-- A state like `sampleState` for a request with the method `POST`. -/
def postState (reg : Registry) (path : String) (auth : List String) : State :=
  ⟨reg, [1, 2, 3], ⟨{ sampleRequest path auth with Method := "POST" }, [], [], false⟩⟩

/-- A registry that holds all six backends. -/
def fullRegistry : Registry :=
  [("auth-service", ⟨"http", "auth-service:8080", ""⟩),
   ("user-service", ⟨"http", "user-service:8081", ""⟩),
   ("property-service", ⟨"http", "property-service:8082", ""⟩),
   ("project-service", ⟨"http", "project-service:8083", ""⟩),
   ("gallery-service", ⟨"http", "gallery-service:8084", ""⟩),
   ("chat-service", ⟨"http", "chat-service:8085", ""⟩)]

/-- Whether an address is made of letters, digits, dots and hyphens only, as a
host name or an IPv4 address is. -/
def plainHost (address : String) : Bool :=
  address.data.all (fun ch => ch.isAlphanum || ch == '.' || ch == '-')

/-- A parser for the samples that reads every text `http://<rest>` as the scheme
`http` and the host `<rest>`, which is what `url.Parse` makes of it when
`<rest>` is a plain host, possibly empty, a colon and a port. -/
def plainParse (rawURL : String) : Option URL :=
  if strings.HasPrefix rawURL "http://" then
    some ⟨"http", strings.TrimPrefix rawURL "http://", ""⟩
  else none

/-! ## Facts about the string operations -/

theorem String.append_right_cancel {a b t : String} (h : a ++ t = b ++ t) : a = b := by
  have h1 := congrArg String.data h
  simp only [String.data_append] at h1
  exact String.ext (List.append_cancel_right h1)

theorem strings.HasPrefix_append (p t : String) : strings.HasPrefix (p ++ t) p = true := by
  simp [strings.HasPrefix]

theorem strings.TrimPrefix_append (p t : String) : strings.TrimPrefix (p ++ t) p = t := by
  simp [strings.TrimPrefix, strings.HasPrefix]

theorem strings.append_TrimPrefix {s p : String} (h : strings.HasPrefix s p = true) :
    p ++ strings.TrimPrefix s p = s := by
  unfold strings.HasPrefix at h
  obtain ⟨t, ht⟩ := List.isPrefixOf_iff_prefix.mp h
  apply String.ext
  simp [strings.TrimPrefix, strings.HasPrefix, h, ← ht]

theorem route_of_split {path a b r : String} {rest : List String}
    (h : strings.Split path '/' = a :: b :: r :: rest) :
    route path = some (serviceNameOf r) := by
  simp [route, h]

theorem route_of_short {path : String} (h : (strings.Split path '/').length < 3) :
    route path = none := by
  simp [route, h]

theorem serviceNameOf_eq_spec (r : String) : serviceNameOf r = specServiceName r := by
  have e1 : ("properties-service" : String) = "properties" ++ "-service" := by decide
  have e2 : ("users-service" : String) = "users" ++ "-service" := by decide
  have e3 : ("projects-service" : String) = "projects" ++ "-service" := by decide
  have c1 : (r ++ "-service" = "properties-service") ↔ r = "properties" :=
    ⟨fun h => String.append_right_cancel (e1 ▸ h), fun h => by rw [h, e1]⟩
  have c2 : (r ++ "-service" = "users-service") ↔ r = "users" :=
    ⟨fun h => String.append_right_cancel (e2 ▸ h), fun h => by rw [h, e2]⟩
  have c3 : (r ++ "-service" = "projects-service") ↔ r = "projects" :=
    ⟨fun h => String.append_right_cancel (e3 ▸ h), fun h => by rw [h, e3]⟩
  simp only [serviceNameOf, specServiceName, c1, c2, c3]

/-! ## Routing -/

/-- C1: for every path that splits on `/` into at least three segments, with `r`
the third one, the routing step of `proxyHandler` derives the service name the
override table gives for `r`: `property-service`, `user-service` and
`project-service` for `properties`, `users` and `projects`, and `r` followed by
`-service` for every other `r`. -/
theorem route_eq_override_table (path a b r : String) (rest : List String)
    (h : strings.Split path '/' = a :: b :: r :: rest) :
    route path = some (specServiceName r) := by
  rw [route_of_split h, serviceNameOf_eq_spec]

/-- Witness for C1: `/api/properties/123` resolves to `property-service`, which is
not `properties-service`. -/
theorem route_eq_override_table_witness :
    strings.Split "/api/properties/123" '/' = ["", "api", "properties", "123"] ∧
    route "/api/properties/123" = some "property-service" ∧
    route "/api/properties/123" ≠ some "properties-service" := by
  have h := route_eq_override_table "/api/properties/123" "" "api" "properties" ["123"]
    (by decide)
  have e : specServiceName "properties" = "property-service" := by decide
  rw [e] at h
  exact ⟨by decide, h, by rw [h]; decide⟩

/-! ## The routing handler: forwarding and errors -/

theorem proxyHandler_of_registered {proxy : ReverseProxy} {s : State} {a b r : String}
    {rest : List String} {target : URL}
    (h : strings.Split s.c.Request.URL.Path '/' = a :: b :: r :: rest)
    (hreg : s.serviceRegistry.lookup (serviceNameOf r) = some target) :
    proxyHandler proxy s =
      forwarded proxy s target (strings.TrimPrefix s.c.Request.URL.Path "/api")
        s.c.Request.URL.Path := by
  simp [proxyHandler, route_of_split h, hreg, forwarded, withPath, Context.setPath]

theorem lookup_eq_none_of_not_key {reg : Registry} {k : String}
    (h : k ∉ reg.map Prod.fst) : reg.lookup k = none := by
  induction reg with
  | nil => rfl
  | cons e reg ih =>
    obtain ⟨k1, u⟩ := e
    simp only [List.map_cons, List.mem_cons, not_or] at h
    have hk : (k == k1) = false := by simpa using h.1
    simp [List.lookup, hk, ih h.2]

/-- C4: for every path with at least three segments whose derived service name
is not a key of the registry, `proxyHandler` writes one 503 answer whose error
message contains the derived service name, whatever the proxy is (the proxy is
not called), and the request is left as it was. -/
theorem proxyHandler_unknown_service (proxy : ReverseProxy) (s : State) (a b r : String)
    (rest : List String)
    (h : strings.Split s.c.Request.URL.Path '/' = a :: b :: r :: rest)
    (hreg : serviceNameOf r ∉ s.serviceRegistry.map Prod.fst) :
    proxyHandler proxy s =
      { s with c := s.c.JSON 503 [("error", notAvailable (serviceNameOf r))] } ∧
    (serviceNameOf r).data <:+: (notAvailable (serviceNameOf r)).data ∧
    (proxyHandler proxy s).c.Request = s.c.Request := by
  have e : proxyHandler proxy s =
      { s with c := s.c.JSON 503 [("error", notAvailable (serviceNameOf r))] } := by
    simp [proxyHandler, route_of_split h, lookup_eq_none_of_not_key hreg,
      StatusServiceUnavailable]
  refine ⟨e, ?_, ?_⟩
  · refine ⟨"Service '".data, "' not available".data, ?_⟩
    simp [notAvailable, String.data_append]
  · rw [e]; rfl

/-- Witness for C4: `/api/foo` with a registry that has no `foo-service` gives 503
with a message naming `foo-service`. -/
theorem proxyHandler_unknown_service_witness :
    (proxyHandler echoProxy (sampleState userRegistry "/api/foo" [])).c.Writer =
      [⟨503, .json [("error", "Service 'foo-service' not available")]⟩] ∧
    proxyHandler echoProxy (sampleState userRegistry "/api/foo" []) =
      { sampleState userRegistry "/api/foo" [] with
        c := (sampleState userRegistry "/api/foo" []).c.JSON 503
          [("error", notAvailable (serviceNameOf "foo"))] } :=
  ⟨by decide,
    (proxyHandler_unknown_service echoProxy (sampleState userRegistry "/api/foo" [])
      "" "api" "foo" [] (by decide) (by decide)).1⟩

/-- Counterexample to C5 as stated: `/api/` has `api` as its only component that
is not empty, so it has no resource segment, and yet `proxyHandler` does not
answer 400: the path has three segments, the third one empty, and the handler
goes on to look `-service` up in the registry and answers 503. -/
theorem proxyHandler_trailing_slash_not_400 :
    nonEmptyComponents "/api/" = ["api"] ∧
    strings.Split "/api/" '/' = ["", "api", ""] ∧
    (proxyHandler echoProxy (sampleState [] "/api/" [])).c.Writer =
      [⟨503, .json [("error", "Service '-service' not available")]⟩] := by
  decide

/-- C5, amended: for every path that splits on `/` into fewer than three segments
(such as `/api` or `/`), `proxyHandler` writes one 400 answer, whatever the
registry holds and whatever the proxy is (no lookup result and no proxy call
enters the outcome), and the request is left as it was. -/
theorem proxyHandler_short_path (proxy : ReverseProxy) (s : State)
    (h : (strings.Split s.c.Request.URL.Path '/').length < 3) :
    proxyHandler proxy s =
      { s with c := s.c.JSON 400 [("error", "Invalid request path")] } := by
  simp [proxyHandler, route_of_short h, StatusBadRequest]

/-- Witness for C5, amended: `/api` and `/` give 400, also when the registry is
not empty. -/
theorem proxyHandler_short_path_witness :
    (proxyHandler echoProxy (sampleState userRegistry "/" [])).c.Writer =
      [⟨400, .json [("error", "Invalid request path")]⟩] ∧
    proxyHandler echoProxy (sampleState userRegistry "/api" []) =
      { sampleState userRegistry "/api" [] with
        c := (sampleState userRegistry "/api" []).c.JSON 400
          [("error", "Invalid request path")] } :=
  ⟨by decide,
    proxyHandler_short_path echoProxy (sampleState userRegistry "/api" []) (by decide)⟩

/-- C6: for every request, every registry and every proxy (one that answers, one
that fails, one that overwrites the path it was handed), the path of the request
after `proxyHandler` is the path it had before. -/
theorem proxyHandler_restores_path (proxy : ReverseProxy) (s : State) :
    (proxyHandler proxy s).c.Request.URL.Path = s.c.Request.URL.Path := by
  unfold proxyHandler
  split
  · rfl
  · split
    · rfl
    · rfl

/-- Sample runs for the four ways out of `proxyHandler`: 400, 503, a forward
that is answered (by a proxy that overwrites the path it was handed), and a
forward whose backend cannot be reached. -/
theorem proxyHandler_path_samples :
    (proxyHandler scribblingProxy (sampleState userRegistry "/api" [])).c.Request.URL.Path =
      "/api" ∧
    (proxyHandler scribblingProxy (sampleState userRegistry "/api/foo" [])).c.Request.URL.Path =
      "/api/foo" ∧
    (proxyHandler scribblingProxy (sampleState userRegistry "/api/users/42" [])).c =
      ⟨sampleRequest "/api/users/42" [], [⟨200, .raw "ok"⟩], [], false⟩ ∧
    (proxyHandler failingProxy (sampleState userRegistry "/api/users/42" [])).c =
      ⟨sampleRequest "/api/users/42" [], [⟨502, .raw ""⟩], [], false⟩ := by
  decide

/-! ## Authentication: missing header and wrong scheme -/

/-- C2: for every request whose `Authorization` header is absent (empty) or does
not start with `Bearer `, `authMiddleware` writes one 401 answer and aborts, and
the state it leaves is the same for every continuation: the handlers that
follow, so `proxyHandler`, are not run, whatever the path is. -/
theorem authMiddleware_rejects_without_bearer (P : jwt.Primitives) (now : Int) (s : State)
    (h : s.c.GetHeader "Authorization" = "" ∨
      strings.HasPrefix (s.c.GetHeader "Authorization") "Bearer " = false) :
    ∃ msg : String, ∀ next : State → State,
      authMiddleware P now next s = { s with c := (s.c.JSON 401 [("error", msg)]).Abort } := by
  by_cases h0 : s.c.GetHeader "Authorization" = ""
  · exact ⟨"Authorization header required", fun next => by
      simp [authMiddleware, h0, StatusUnauthorized]⟩
  · have h1 : strings.HasPrefix (s.c.GetHeader "Authorization") "Bearer " = false :=
      h.resolve_left h0
    exact ⟨"Bearer token required", fun next => by
      simp [authMiddleware, h0, h1, StatusUnauthorized]⟩

/-- Witness for C2: without a header, and with a header of another scheme, the
answer is 401 and the chain is aborted, on a path that `proxyHandler` would
answer with 400 and on one it would answer with 503. -/
theorem authMiddleware_rejects_without_bearer_witness :
    (protectedChain samplePrimitives 50 echoProxy (sampleState [] "/api" [])).c.Writer =
      [⟨401, .json [("error", "Authorization header required")]⟩] ∧
    (protectedChain samplePrimitives 50 echoProxy
      (sampleState [] "/api/users/1" ["Basic dXNlcg=="])).c.Writer =
      [⟨401, .json [("error", "Bearer token required")]⟩] ∧
    ∃ msg : String, ∀ next : State → State,
      authMiddleware samplePrimitives 50 next (sampleState [] "/api/users/1" ["bearer x"]) =
        { sampleState [] "/api/users/1" ["bearer x"] with
          c := ((sampleState [] "/api/users/1" ["bearer x"]).c.JSON 401
            [("error", msg)]).Abort } :=
  ⟨by decide, by decide,
    authMiddleware_rejects_without_bearer samplePrimitives 50
      (sampleState [] "/api/users/1" ["bearer x"]) (by decide)⟩

/-! ## Authentication: token validation -/

theorem bearer_append_ne_empty (t : String) : "Bearer " ++ t ≠ "" := by
  intro h
  have h1 := congrArg String.length h
  simp only [String.length_append] at h1
  have h2 : "Bearer ".length = 7 := by decide
  have h3 : "".length = 0 := by decide
  omega

/-- What a successful `ParseUnverified` says about the text of the token. -/
theorem jwt.ParseUnverified_ok {P : jwt.Primitives} {t : String} {tok : jwt.Token}
    {p0 p1 p2 : String} (h : jwt.ParseUnverified P t = .ok (tok, p0, p1, p2)) :
    strings.Split t '.' = [p0, p1, p2] ∧
    ∃ claimBytes, P.DecodeSegment p1 = some claimBytes ∧
      P.UnmarshalClaims claimBytes = some tok.Claims := by
  unfold jwt.ParseUnverified at h
  split at h
  · rename_i q0 q1 q2 hs
    split at h
    · cases h
    · split at h
      · cases h
      · split at h
        · cases h
        · rename_i cb hcb
          split at h
          · cases h
          · rename_i cl hcl
            split at h
            · cases h
            · split at h
              · cases h
              · cases h
                exact ⟨hs, cb, hcb, hcl⟩
  · cases h

/-- What a successful `ParseWithClaims` went through. -/
theorem jwt.ParseWithClaims_ok {P : jwt.Primitives} {now : Int} {t : String}
    {keyFunc : jwt.Token → Except jwt.Error Bytes} {tok : jwt.Token}
    (h : jwt.ParseWithClaims P now t keyFunc = .ok tok) :
    ∃ raw p0 p1 p2 key sig,
      jwt.ParseUnverified P t = .ok (raw, p0, p1, p2) ∧
      keyFunc raw = .ok key ∧
      P.DecodeSegment p2 = some sig ∧
      raw.Method.Verify P (p0 ++ "." ++ p1) sig key = true ∧
      jwt.Validate now raw.Claims = [] ∧
      tok = { raw with Signature := sig, Valid := true } := by
  unfold jwt.ParseWithClaims at h
  split at h
  · cases h
  · rename_i raw p0 p1 p2 hpu
    split at h
    · cases h
    · rename_i key hkey
      split at h
      · cases h
      · rename_i sig hsig
        split at h
        · rename_i hver
          split at h
          · rename_i hval
            cases h
            exact ⟨raw, p0, p1, p2, key, sig, hpu, hkey, hsig, hver, hval, rfl⟩
          · cases h
        · cases h

theorem authMiddleware_of_bearer {P : jwt.Primitives} {now : Int} {next : State → State}
    {s : State} {t : String} (hhdr : s.c.GetHeader "Authorization" = "Bearer " ++ t) :
    authMiddleware P now next s =
      match jwt.ParseWithClaims P now t (fun _ => .ok s.jwtSecret) with
      | .error _ => invalidToken s
      | .ok token =>
        if !token.Valid then invalidToken s
        else
          next { s with
            c := (s.c.Set "userId" token.Claims.UserID).Set "userEmail" token.Claims.Email } := by
  simp only [authMiddleware, hhdr, bearer_append_ne_empty, strings.HasPrefix_append,
    strings.TrimPrefix_append, if_false, Bool.not_true, Bool.false_eq_true, invalidToken,
    StatusUnauthorized]

theorem authMiddleware_of_failed {P : jwt.Primitives} {now : Int} {next : State → State}
    {s : State} {t : String} (hhdr : s.c.GetHeader "Authorization" = "Bearer " ++ t)
    (hfail : ∀ tok, jwt.ParseWithClaims P now t (fun _ => .ok s.jwtSecret) = .ok tok →
      tok.Valid = false) :
    authMiddleware P now next s = invalidToken s := by
  rw [authMiddleware_of_bearer hhdr]
  split
  · rfl
  · rename_i token htok
    simp [hfail token htok]

theorem jwt.ParseWithClaims_valid {P : jwt.Primitives} {now : Int} {t : String}
    {keyFunc : jwt.Token → Except jwt.Error Bytes} {tok : jwt.Token}
    (h : jwt.ParseWithClaims P now t keyFunc = .ok tok) : tok.Valid = true := by
  obtain ⟨raw, p0, p1, p2, key, sig, -, -, -, -, -, rfl⟩ := jwt.ParseWithClaims_ok h
  rfl

/-- C7: for every header `Bearer ` followed by a token that parses as a JWT (three
segments, header and claims that decode, a registered algorithm) but is unsigned
(algorithm `none`) or carries a signature that does not verify under the
gateway's secret, `authMiddleware` writes the 401 answer and aborts, and the
state it leaves is the same for every continuation: `proxyHandler` is not run. -/
theorem authMiddleware_rejects_bad_signature (P : jwt.Primitives) (now : Int) (s : State)
    (tokenString : String) (token : jwt.Token) (p0 p1 p2 : String)
    (hhdr : s.c.GetHeader "Authorization" = "Bearer " ++ tokenString)
    (hparse : jwt.ParseUnverified P tokenString = .ok (token, p0, p1, p2))
    (hsig : token.Method = .None ∨
      ∀ sig, P.DecodeSegment p2 = some sig →
        token.Method.Verify P (p0 ++ "." ++ p1) sig s.jwtSecret = false) :
    ∀ next : State → State,
      authMiddleware P now next s =
        { s with c := (s.c.JSON 401 [("error", "Invalid or expired token")]).Abort } := by
  intro next
  apply authMiddleware_of_failed hhdr
  intro tok htok
  exfalso
  obtain ⟨raw, q0, q1, q2, key, sig, hpu, hkey, hdec, hver, -, -⟩ :=
    jwt.ParseWithClaims_ok htok
  rw [hparse] at hpu
  cases hpu
  cases hkey
  rcases hsig with hnone | hbad
  · rw [hnone] at hver
    simp [jwt.SigningMethod.Verify] at hver
  · rw [hbad sig hdec] at hver
    cases hver

/-- Witness for C7: a token with a wrong signature is refused with 401 and the
proxy is not called; so is an unsigned token with algorithm `none`. -/
theorem authMiddleware_rejects_bad_signature_witness :
    (protectedChain samplePrimitives 50 echoProxy
      (sampleState userRegistry "/api/users/1" ["Bearer hnone.cgood."])).c.Writer =
      [⟨401, .json [("error", "Invalid or expired token")]⟩] ∧
    ∀ next : State → State,
      authMiddleware samplePrimitives 50 next
          (sampleState userRegistry "/api/users/1" ["Bearer h256.cgood.bad"]) =
        { sampleState userRegistry "/api/users/1" ["Bearer h256.cgood.bad"] with
          c := ((sampleState userRegistry "/api/users/1" ["Bearer h256.cgood.bad"]).c.JSON 401
            [("error", "Invalid or expired token")]).Abort } :=
  ⟨by decide,
    authMiddleware_rejects_bad_signature samplePrimitives 50
      (sampleState userRegistry "/api/users/1" ["Bearer h256.cgood.bad"])
      "h256.cgood.bad" ⟨"h256.cgood.bad", .HMAC "HS256", sampleClaims, [], false⟩
      "h256" "cgood" "bad" (by decide) (by decide) (Or.inr (by decide))⟩

/-- C8: for every header `Bearer ` followed by a token that parses, whose
signature verifies under the gateway's secret, and whose `exp` claim lies before
the instant of validation, the parser gets as far as the claims and fails there
with an error that lists `Expired`; `authMiddleware` writes the 401 answer and
aborts, and the state it leaves is the same for every continuation:
`proxyHandler` is not run. -/
theorem authMiddleware_rejects_expired (P : jwt.Primitives) (now : Int) (s : State)
    (tokenString : String) (token : jwt.Token) (p0 p1 p2 : String) (sig : Bytes) (exp : Int)
    (hhdr : s.c.GetHeader "Authorization" = "Bearer " ++ tokenString)
    (hparse : jwt.ParseUnverified P tokenString = .ok (token, p0, p1, p2))
    (hdec : P.DecodeSegment p2 = some sig)
    (hver : token.Method.Verify P (p0 ++ "." ++ p1) sig s.jwtSecret = true)
    (hexp : token.Claims.ExpiresAt = some exp) (hpast : exp < now) :
    (∃ errs, jwt.ParseWithClaims P now tokenString (fun _ => .ok s.jwtSecret) =
        .error (.TokenInvalidClaims errs) ∧ jwt.ClaimError.Expired ∈ errs) ∧
    ∀ next : State → State,
      authMiddleware P now next s =
        { s with c := (s.c.JSON 401 [("error", "Invalid or expired token")]).Abort } := by
  have hnot : ¬ now < exp := by omega
  constructor
  · have hv : jwt.Validate now token.Claims =
        jwt.ClaimError.Expired :: (match token.Claims.NotBefore with
          | some nbf => if now < nbf then [jwt.ClaimError.NotValidYet] else []
          | none => []) := by
      simp [jwt.Validate, hexp, hnot]
    refine ⟨jwt.Validate now token.Claims, ?_, ?_⟩
    · simp only [jwt.ParseWithClaims, hparse, hdec, hver, hv, if_true]
    · rw [hv]
      exact List.mem_cons_self _ _
  · intro next
    apply authMiddleware_of_failed hhdr
    intro tok htok
    exfalso
    obtain ⟨raw, q0, q1, q2, key, sig1, hpu, -, -, -, hval, -⟩ := jwt.ParseWithClaims_ok htok
    rw [hparse] at hpu
    cases hpu
    simp [jwt.Validate, hexp, hnot] at hval

/-- Witness for C8: a correctly signed token with `exp` at 5 is refused at
instant 50. -/
theorem authMiddleware_rejects_expired_witness :
    jwt.ParseWithClaims samplePrimitives 50 "h256.cexp.sig" (fun _ => .ok [1, 2, 3]) =
      .error (.TokenInvalidClaims [.Expired]) ∧
    (protectedChain samplePrimitives 50 echoProxy
      (sampleState userRegistry "/api/users/1" ["Bearer h256.cexp.sig"])).c.Writer =
      [⟨401, .json [("error", "Invalid or expired token")]⟩] ∧
    ∀ next : State → State,
      authMiddleware samplePrimitives 50 next
          (sampleState userRegistry "/api/users/1" ["Bearer h256.cexp.sig"]) =
        { sampleState userRegistry "/api/users/1" ["Bearer h256.cexp.sig"] with
          c := ((sampleState userRegistry "/api/users/1" ["Bearer h256.cexp.sig"]).c.JSON 401
            [("error", "Invalid or expired token")]).Abort } :=
  ⟨by decide, by decide,
    (authMiddleware_rejects_expired samplePrimitives 50
      (sampleState userRegistry "/api/users/1" ["Bearer h256.cexp.sig"])
      "h256.cexp.sig"
      ⟨"h256.cexp.sig", .HMAC "HS256", { sampleClaims with ExpiresAt := some 5 }, [], false⟩
      "h256" "cexp" "sig" [42] 5 (by decide) (by decide) (by decide) (by decide) (by decide)
      (by decide)).2⟩

/-- C9: for any two requests with bearer tokens that both fail validation, at
whatever step and at whatever instant each fails, `authMiddleware` writes the
same answer to both: status 401 with the one body `Invalid or expired token`. -/
theorem authMiddleware_failures_indistinguishable (P : jwt.Primitives) (now1 now2 : Int)
    (s1 s2 : State) (t1 t2 : String) (next1 next2 : State → State)
    (hw : s1.c.Writer = s2.c.Writer)
    (h1 : s1.c.GetHeader "Authorization" = "Bearer " ++ t1)
    (h2 : s2.c.GetHeader "Authorization" = "Bearer " ++ t2)
    (hf1 : ∀ tok, jwt.ParseWithClaims P now1 t1 (fun _ => .ok s1.jwtSecret) = .ok tok →
      tok.Valid = false)
    (hf2 : ∀ tok, jwt.ParseWithClaims P now2 t2 (fun _ => .ok s2.jwtSecret) = .ok tok →
      tok.Valid = false) :
    (authMiddleware P now1 next1 s1).c.Writer = (authMiddleware P now2 next2 s2).c.Writer ∧
    (authMiddleware P now1 next1 s1).c.Writer =
      s1.c.Writer ++ [⟨401, .json [("error", "Invalid or expired token")]⟩] := by
  rw [authMiddleware_of_failed h1 hf1, authMiddleware_of_failed h2 hf2]
  simp [invalidToken, Context.JSON, Context.Abort, hw]

/-- Witness for C9: a malformed token and an expired one fail at different steps
with different errors, and get the same answer. -/
theorem authMiddleware_failures_indistinguishable_witness :
    jwt.ParseWithClaims samplePrimitives 50 "garbage" (fun _ => .ok [1, 2, 3]) =
      .error .TokenMalformed ∧
    jwt.ParseWithClaims samplePrimitives 50 "h256.cexp.sig" (fun _ => .ok [1, 2, 3]) =
      .error (.TokenInvalidClaims [.Expired]) ∧
    (authMiddleware samplePrimitives 50 (proxyHandler echoProxy)
        (sampleState userRegistry "/api/users/1" ["Bearer garbage"])).c.Writer =
      (authMiddleware samplePrimitives 50 (proxyHandler echoProxy)
        (sampleState userRegistry "/api/users/1" ["Bearer h256.cexp.sig"])).c.Writer :=
  ⟨by decide, by decide,
    (authMiddleware_failures_indistinguishable samplePrimitives 50 50
      (sampleState userRegistry "/api/users/1" ["Bearer garbage"])
      (sampleState userRegistry "/api/users/1" ["Bearer h256.cexp.sig"])
      "garbage" "h256.cexp.sig" (proxyHandler echoProxy) (proxyHandler echoProxy)
      (by decide) (by decide) (by decide)
      (by
        intro tok h
        have e : jwt.ParseWithClaims samplePrimitives 50 "garbage"
            (fun _ => .ok (sampleState userRegistry "/api/users/1" ["Bearer garbage"]).jwtSecret)
            = .error .TokenMalformed := by decide
        rw [e] at h
        cases h)
      (by
        intro tok h
        have e : jwt.ParseWithClaims samplePrimitives 50 "h256.cexp.sig"
            (fun _ => .ok
              (sampleState userRegistry "/api/users/1" ["Bearer h256.cexp.sig"]).jwtSecret)
            = .error (.TokenInvalidClaims [.Expired]) := by decide
        rw [e] at h
        cases h)).1⟩

/-- C10: for every header `Bearer ` followed by a token that validates, the
context `authMiddleware` passes on holds the `userId` claim of the token under
`userId` and its `email` claim under `userEmail`, both as decoded from the
second segment of the token; the context is not aborted by the middleware,
nothing is written to the response, and the result of the middleware is the
result of the handlers that follow, run on that context. -/
theorem authMiddleware_passes_claims (P : jwt.Primitives) (now : Int) (s : State)
    (tokenString : String) (token : jwt.Token)
    (hhdr : s.c.GetHeader "Authorization" = "Bearer " ++ tokenString)
    (hok : jwt.ParseWithClaims P now tokenString (fun _ => .ok s.jwtSecret) = .ok token) :
    ∃ c1 : Context,
      (∀ next : State → State, authMiddleware P now next s = next { s with c := c1 }) ∧
      c1.Get "userId" = some token.Claims.UserID ∧
      c1.Get "userEmail" = some token.Claims.Email ∧
      c1.aborted = s.c.aborted ∧ c1.Writer = s.c.Writer ∧ c1.Request = s.c.Request ∧
      ∃ p0 p1 p2 claimBytes, strings.Split tokenString '.' = [p0, p1, p2] ∧
        P.DecodeSegment p1 = some claimBytes ∧
        P.UnmarshalClaims claimBytes = some token.Claims := by
  refine ⟨(s.c.Set "userId" token.Claims.UserID).Set "userEmail" token.Claims.Email,
    ?_, ?_, ?_, rfl, rfl, rfl, ?_⟩
  · intro next
    rw [authMiddleware_of_bearer hhdr, hok]
    simp [jwt.ParseWithClaims_valid hok]
  · have hne : (("userEmail" : String) == "userId") = false := by decide
    have hne2 : (("userId" : String) != "userEmail") = true := by decide
    simp [Context.Get, Context.Set, List.lookup, List.filter, hne, hne2]
  · simp [Context.Get, Context.Set, List.lookup]
  · obtain ⟨raw, p0, p1, p2, key, sig, hpu, -, -, -, -, rfl⟩ := jwt.ParseWithClaims_ok hok
    obtain ⟨hs, cb, hcb, hcl⟩ := jwt.ParseUnverified_ok hpu
    exact ⟨p0, p1, p2, cb, hs, hcb, hcl⟩

/-- Witness for C10: a valid token passes, `proxyHandler` runs and forwards
`/users/1`, and the context holds the two claims. -/
theorem authMiddleware_passes_claims_witness :
    (protectedChain samplePrimitives 50 echoProxy
      (sampleState userRegistry "/api/users/1" ["Bearer h256.cgood.sig"])).c =
      ⟨sampleRequest "/api/users/1" ["Bearer h256.cgood.sig"], [⟨200, .raw "/users/1"⟩],
        [("userEmail", "ann@example.org"), ("userId", "u-17")], false⟩ ∧
    ∃ c1 : Context,
      (∀ next : State → State,
        authMiddleware samplePrimitives 50 next
            (sampleState userRegistry "/api/users/1" ["Bearer h256.cgood.sig"]) =
          next { sampleState userRegistry "/api/users/1" ["Bearer h256.cgood.sig"] with
            c := c1 }) ∧
      c1.Get "userId" = some "u-17" ∧ c1.Get "userEmail" = some "ann@example.org" :=
  ⟨by decide,
    (authMiddleware_passes_claims samplePrimitives 50
      (sampleState userRegistry "/api/users/1" ["Bearer h256.cgood.sig"])
      "h256.cgood.sig"
      ⟨"h256.cgood.sig", .HMAC "HS256", sampleClaims, [42], true⟩
      (by decide) (by decide)).imp (fun _ h => ⟨h.1, h.2.1, h.2.2.1⟩)⟩

/-! ## Service discovery -/

theorem lookup_store (reg : Registry) (k k1 : String) (u : URL) :
    (Registry.store reg k u).lookup k1 = if k1 = k then some u else reg.lookup k1 := by
  unfold Registry.store
  by_cases h : k1 = k
  · subst h
    simp [List.lookup]
  · have hb : (k1 == k) = false := by simpa using h
    simp only [List.lookup, hb, if_neg h]
    induction reg with
    | nil => rfl
    | cons e reg ih =>
      obtain ⟨k2, v⟩ := e
      by_cases h2 : k2 = k
      · subst h2
        have hb2 : (k1 == k2) = false := by simpa using h
        simp [List.filter, List.lookup, hb2, ih]
      · have hne : (k2 != k) = true := by simpa using h2
        simp only [List.filter, hne, List.lookup]
        split <;> simp_all

theorem lookup_discoverStep (client : consul.Client) (parse : String → Option URL)
    (reg : Registry) (n name : String) :
    (discoverStep client parse reg n).lookup name =
      if name = n then
        match discoveredLocation client parse n with
        | some u => some u
        | none => reg.lookup name
      else reg.lookup name := by
  unfold discoverStep discoveredLocation firstHealthy
  by_cases hs : strings.HasSuffix n "-service" = true
  · simp only [hs, if_true]
    cases hh : client.HealthService n with
    | error e => simp
    | ok entries =>
      cases entries with
      | nil => simp
      | cons entry rest =>
        simp only [Option.some_bind]
        cases hp : parse (locationText entry.Service) with
        | none => simp
        | some u => simp only [lookup_store]
  · simp [hs]

theorem lookup_foldl_discoverStep (client : consul.Client) (parse : String → Option URL)
    (names : List String) (reg : Registry) (name : String) :
    (names.foldl (discoverStep client parse) reg).lookup name =
      match specRegistry client parse names name with
      | some u => some u
      | none => reg.lookup name := by
  induction names generalizing reg with
  | nil => simp [specRegistry]
  | cons n ns ih =>
    rw [List.foldl_cons, ih, lookup_discoverStep]
    unfold specRegistry
    by_cases hn : name = n
    · subst hn
      by_cases hm : name ∈ ns
      · simp only [hm, if_true, List.mem_cons, true_or]
        cases discoveredLocation client parse name <;> simp
      · simp only [hm, if_false, List.mem_cons, true_or, if_true]
    · have hmem : (name ∈ n :: ns) ↔ name ∈ ns := by simp [hn]
      simp only [hmem, if_neg hn]

theorem lookup_discoverServices {client : consul.Client} {names : List String}
    (parse : String → Option URL) (h : client.CatalogServices = .ok names) (name : String) :
    (discoverServices client parse []).lookup name = specRegistry client parse names name := by
  unfold discoverServices
  rw [h]
  simp only [lookup_foldl_discoverStep]
  cases specRegistry client parse names name <;> simp

theorem keys_store_nodup {reg : Registry} (k : String) (u : URL)
    (h : (reg.map Prod.fst).Nodup) : ((Registry.store reg k u).map Prod.fst).Nodup := by
  unfold Registry.store
  rw [List.map_cons, List.nodup_cons]
  constructor
  · intro hmem
    obtain ⟨e, he, hk⟩ := List.mem_map.mp hmem
    have hne := (List.mem_filter.mp he).2
    simp only [bne_iff_ne, ne_eq] at hne
    exact hne hk
  · exact h.sublist ((List.filter_sublist reg).map Prod.fst)

theorem keys_discoverStep_nodup (client : consul.Client) (parse : String → Option URL)
    {reg : Registry} (n : String) (h : (reg.map Prod.fst).Nodup) :
    ((discoverStep client parse reg n).map Prod.fst).Nodup := by
  unfold discoverStep
  split
  · split
    · exact h
    · exact h
    · dsimp only
      split
      · exact h
      · exact keys_store_nodup _ _ h
  · exact h

theorem keys_foldl_discoverStep_nodup (client : consul.Client) (parse : String → Option URL)
    (names : List String) {reg : Registry} (h : (reg.map Prod.fst).Nodup) :
    ((names.foldl (discoverStep client parse) reg).map Prod.fst).Nodup := by
  induction names generalizing reg with
  | nil => exact h
  | cons n ns ih => exact ih (keys_discoverStep_nodup client parse n h)

/-- Counterexample to C11 as stated: `user-service` is listed, ends in `-service`
and its health query succeeds with a passing instance, whose address `bad host`
has a blank; the parser refuses `http://bad host:8081`, the loop skips the name,
and the registry has no entry for it. -/
theorem discoverServices_skips_unparsable_location :
    (sampleClient "bad host" 8081).CatalogServices = .ok ["consul", "user-service"] ∧
    strings.HasSuffix "user-service" "-service" = true ∧
    firstHealthy (sampleClient "bad host" 8081) "user-service" = some ⟨"bad host", 8081⟩ ∧
    locationText ⟨"bad host", 8081⟩ = "http://bad host:8081" ∧
    sampleParse "http://bad host:8081" = none ∧
    discoverServices (sampleClient "bad host" 8081) sampleParse [] = [] := by
  decide

/-- C11, amended: starting from an empty registry, after a listing that succeeds
the registry is exactly the mapping that sends each listed service name that
ends in `-service`, whose health query succeeds with at least one passing
instance, and whose text `http://<address>:<port>` of the first instance
returned the parser accepts, to that parsed location; it has no other key, and
no key twice. -/
theorem discoverServices_eq_specRegistry (client : consul.Client)
    (parse : String → Option URL) (names : List String)
    (h : client.CatalogServices = .ok names) :
    (∀ name, (discoverServices client parse []).lookup name =
      specRegistry client parse names name) ∧
    ((discoverServices client parse []).map Prod.fst).Nodup := by
  refine ⟨lookup_discoverServices parse h, ?_⟩
  unfold discoverServices
  rw [h]
  exact keys_foldl_discoverStep_nodup client parse names List.nodup_nil

/-- Witness for C11, amended: a backend that lists `user-service` with one
passing instance at `10.0.0.5:8081` gives a registry that resolves
`user-service` to `http://10.0.0.5:8081` and holds nothing else. -/
theorem discoverServices_eq_specRegistry_witness :
    discoverServices (sampleClient "10.0.0.5" 8081) sampleParse [] =
      [("user-service", ⟨"http", "10.0.0.5:8081", ""⟩)] ∧
    specRegistry (sampleClient "10.0.0.5" 8081) sampleParse ["consul", "user-service"]
      "user-service" = some ⟨"http", "10.0.0.5:8081", ""⟩ ∧
    (∀ name, (discoverServices (sampleClient "10.0.0.5" 8081) sampleParse []).lookup name =
      specRegistry (sampleClient "10.0.0.5" 8081) sampleParse ["consul", "user-service"]
        name) :=
  ⟨by decide, by decide,
    (discoverServices_eq_specRegistry (sampleClient "10.0.0.5" 8081) sampleParse
      ["consul", "user-service"] rfl).1⟩

/-- C12: when the health query for a listed name `n` fails or finds no passing
instance, `n` gets no entry, and for every other name `m` the entry stored is
the one that would be stored had the query for `n` given any other answer, and
the one that would be stored had `n` not been listed. -/
theorem discoverServices_failed_health_is_local (client : consul.Client)
    (parse : String → Option URL) (names : List String) (n : String)
    (hlist : client.CatalogServices = .ok names)
    (hfail : (∃ e, client.HealthService n = .error e) ∨ client.HealthService n = .ok []) :
    (discoverServices client parse []).lookup n = none ∧
    ∀ m, m ≠ n →
      (∀ answer : Except String (List consul.ServiceEntry),
        (discoverServices
          { client with HealthService := Function.update client.HealthService n answer }
          parse []).lookup m = (discoverServices client parse []).lookup m) ∧
      (discoverServices
        { client with CatalogServices := .ok (names.filter (fun k => k != n)) }
        parse []).lookup m = (discoverServices client parse []).lookup m := by
  have hnone : firstHealthy client n = none := by
    unfold firstHealthy
    rcases hfail with ⟨e, he⟩ | he <;> rw [he]
  refine ⟨?_, ?_⟩
  · rw [lookup_discoverServices parse hlist]
    simp [specRegistry, discoveredLocation, hnone]
  · intro m hm
    constructor
    · intro answer
      rw [lookup_discoverServices parse hlist,
        @lookup_discoverServices
          { client with HealthService := Function.update client.HealthService n answer }
          names parse hlist]
      simp [specRegistry, discoveredLocation, firstHealthy, Function.update_noteq hm]
    · rw [lookup_discoverServices parse hlist,
        @lookup_discoverServices
          { client with CatalogServices := .ok (names.filter (fun k => k != n)) }
          (names.filter (fun k => k != n)) parse rfl]
      simp [specRegistry, discoveredLocation, firstHealthy, List.mem_filter, hm]

/-- Witness for C12: the query for `chat-service` fails and the one for
`gallery-service` is empty; `user-service` is stored with its first instance
all the same. -/
theorem discoverServices_failed_health_is_local_witness :
    discoverServices partialClient sampleParse [] =
      [("user-service", ⟨"http", "10.0.0.5:8081", ""⟩)] ∧
    (discoverServices partialClient sampleParse []).lookup "chat-service" = none ∧
    ∀ m, m ≠ "chat-service" →
      (∀ answer : Except String (List consul.ServiceEntry),
        (discoverServices
          { partialClient with
            HealthService := Function.update partialClient.HealthService "chat-service" answer }
          sampleParse []).lookup m = (discoverServices partialClient sampleParse []).lookup m) ∧
      (discoverServices
        { partialClient with
          CatalogServices := .ok
            (["chat-service", "user-service", "gallery-service"].filter
              (fun k => k != "chat-service")) }
        sampleParse []).lookup m = (discoverServices partialClient sampleParse []).lookup m :=
  ⟨by decide,
    discoverServices_failed_health_is_local partialClient sampleParse
      ["chat-service", "user-service", "gallery-service"] "chat-service" rfl
      (Or.inl ⟨"connection refused", by decide⟩)⟩

/-- C13: when the listing call fails, `discoverServices` returns the registry it
was given, so the empty registry stays empty, and `proxyHandler` run on that
registry answers every path with at least three segments with the 503 answer
that names the service, whatever the proxy is (the proxy is not called). -/
theorem discoverServices_backend_down (client : consul.Client) (parse : String → Option URL)
    (e : String) (h : client.CatalogServices = .error e) :
    discoverServices client parse [] = [] ∧
    ∀ (proxy : ReverseProxy) (s : State) (a b r : String) (rest : List String),
      s.serviceRegistry = discoverServices client parse [] →
      strings.Split s.c.Request.URL.Path '/' = a :: b :: r :: rest →
      proxyHandler proxy s =
        { s with c := s.c.JSON 503 [("error", notAvailable (serviceNameOf r))] } := by
  have hempty : discoverServices client parse [] = [] := by
    unfold discoverServices
    rw [h]
  refine ⟨hempty, ?_⟩
  intro proxy s a b r rest hreg hsplit
  rw [hempty] at hreg
  simp [proxyHandler, route_of_split hsplit, hreg, StatusServiceUnavailable]

/-- Witness for C13: with the backend down the registry is empty and
`/api/users/42` gets 503. -/
theorem discoverServices_backend_down_witness :
    discoverServices downClient sampleParse [] = [] ∧
    (proxyHandler echoProxy
      (sampleState (discoverServices downClient sampleParse []) "/api/users/42" [])).c.Writer =
      [⟨503, .json [("error", "Service 'user-service' not available")]⟩] ∧
    proxyHandler echoProxy
        (sampleState (discoverServices downClient sampleParse []) "/api/users/42" []) =
      { sampleState (discoverServices downClient sampleParse []) "/api/users/42" [] with
        c := (sampleState (discoverServices downClient sampleParse [])
          "/api/users/42" []).c.JSON 503 [("error", notAvailable (serviceNameOf "users"))] } :=
  ⟨by decide, by decide,
    (discoverServices_backend_down downClient sampleParse "connection refused" rfl).2
      echoProxy (sampleState (discoverServices downClient sampleParse []) "/api/users/42" [])
      "" "api" "users" ["42"] rfl (by decide)⟩

/-! ## Request handling leaves the package variables alone -/

theorem proxyHandler_registry (proxy : ReverseProxy) (s : State) :
    (proxyHandler proxy s).serviceRegistry = s.serviceRegistry ∧
    (proxyHandler proxy s).jwtSecret = s.jwtSecret := by
  unfold proxyHandler
  split
  · exact ⟨rfl, rfl⟩
  · split
    · exact ⟨rfl, rfl⟩
    · exact ⟨rfl, rfl⟩

theorem authMiddleware_registry (P : jwt.Primitives) (now : Int) (next : State → State)
    (hnext : ∀ t, (next t).serviceRegistry = t.serviceRegistry ∧ (next t).jwtSecret = t.jwtSecret)
    (s : State) :
    (authMiddleware P now next s).serviceRegistry = s.serviceRegistry ∧
    (authMiddleware P now next s).jwtSecret = s.jwtSecret := by
  unfold authMiddleware
  dsimp only
  split
  · exact ⟨rfl, rfl⟩
  · split
    · exact ⟨rfl, rfl⟩
    · split
      · exact ⟨rfl, rfl⟩
      · split
        · exact ⟨rfl, rfl⟩
        · exact hnext _

/-- C14: for every request, every registry and every proxy, the registry after
`proxyHandler`, after `authMiddleware` followed by `proxyHandler`, and after
the gateway has served the request on a registered route, is the registry
before; the same holds for the secret. -/
theorem request_handling_keeps_registry (P : jwt.Primitives) (now : Int)
    (proxy : ReverseProxy) (s : State) :
    (proxyHandler proxy s).serviceRegistry = s.serviceRegistry ∧
    (protectedChain P now proxy s).serviceRegistry = s.serviceRegistry ∧
    (gateway P now proxy s).map (fun t => t.serviceRegistry) =
      (gateway P now proxy s).map (fun _ => s.serviceRegistry) ∧
    (protectedChain P now proxy s).jwtSecret = s.jwtSecret := by
  have hp := proxyHandler_registry proxy
  have ha := authMiddleware_registry P now (proxyHandler proxy) hp s
  refine ⟨(hp s).1, ha.1, ?_, ha.2⟩
  unfold gateway
  split
  · simp [(hp s).1]
  · split
    · simp only [Option.map_some', protectedChain, ha.1]
    · rfl

/-! ## What the registry holds -/

theorem discoverServices_lookup_some (client : consul.Client) (parse : String → Option URL)
    (name : String) (u : URL)
    (h : (discoverServices client parse []).lookup name = some u) :
    strings.HasSuffix name "-service" = true ∧
    ∃ inst, firstHealthy client name = some inst ∧ parse (locationText inst) = some u := by
  cases hl : client.CatalogServices with
  | error e =>
    have hempty : discoverServices client parse [] = [] := by
      unfold discoverServices
      rw [hl]
    rw [hempty] at h
    cases h
  | ok names =>
    rw [lookup_discoverServices parse hl] at h
    unfold specRegistry discoveredLocation at h
    split at h
    · split at h
      · rename_i hs
        refine ⟨hs, ?_⟩
        cases hf : firstHealthy client name with
        | none => rw [hf] at h; cases h
        | some inst => rw [hf] at h; exact ⟨inst, rfl, h⟩
      · cases h
    · cases h

theorem locationText_eq (inst : consul.AgentService) :
    locationText inst = "http://" ++ (inst.Address ++ ":" ++ toString inst.Port) := by
  simp [locationText, String.append_assoc]

/-- Counterexample to C15 as stated: the first healthy instance of `user-service`
reports an empty address and port 8081; the text `http://:8081` parses, and the
location stored has the host `:8081`, whose host name is empty. -/
theorem discoverServices_stores_empty_host :
    firstHealthy (sampleClient "" 8081) "user-service" = some ⟨"", 8081⟩ ∧
    locationText ⟨"", 8081⟩ = "http://:8081" ∧
    discoverServices (sampleClient "" 8081) sampleParse [] =
      [("user-service", ⟨"http", ":8081", ""⟩)] ∧
    URL.Hostname ⟨"http", ":8081", ""⟩ = "" := by
  decide

/-- C15, amended: every entry of the registry is what the parser returned for the
text `http://<address>:<port>` of the first healthy instance of its service.
With a parser that, like `url.Parse`, reads a text `http://<host>:<port>` whose
host is made of letters, digits, dots and hyphens as the scheme `http` and the
host `<host>:<port>`: when the first healthy instance of a listed service
reports such an address and a port that is not negative, the location stored has
the scheme `http` and the host `<address>:<port>`, so a host name that is not
empty when the address is not empty, and the host `:<port>` when the address is
empty. -/
theorem discoverServices_stores_parsed_location (client : consul.Client)
    (parse : String → Option URL) (names : List String) (name address : String) (port : Int)
    (hlib : ∀ (a : String) (p : Int), plainHost a = true → 0 ≤ p →
      parse ("http://" ++ a ++ ":" ++ toString p) = some ⟨"http", a ++ ":" ++ toString p, ""⟩)
    (hlist : client.CatalogServices = .ok names) (hmem : name ∈ names)
    (hsuf : strings.HasSuffix name "-service" = true)
    (hfirst : firstHealthy client name = some ⟨address, port⟩)
    (hplain : plainHost address = true) (hport : 0 ≤ port) :
    (discoverServices client parse []).lookup name =
      some ⟨"http", address ++ ":" ++ toString port, ""⟩ ∧
    (address = "" →
      (discoverServices client parse []).lookup name = some ⟨"http", ":" ++ toString port, ""⟩) ∧
    ∀ n u, (discoverServices client parse []).lookup n = some u →
      ∃ inst, firstHealthy client n = some inst ∧
        parse ("http://" ++ inst.Address ++ ":" ++ toString inst.Port) = some u := by
  have hl : (discoverServices client parse []).lookup name =
      some ⟨"http", address ++ ":" ++ toString port, ""⟩ := by
    rw [lookup_discoverServices parse hlist]
    simp only [specRegistry, hmem, if_true, discoveredLocation, hsuf, hfirst,
      Option.some_bind, locationText]
    exact hlib address port hplain hport
  refine ⟨hl, ?_, ?_⟩
  · intro he
    subst he
    rw [hl]
    have e : ("" : String) ++ ":" = ":" := by decide
    rw [e]
  · intro n u hn
    obtain ⟨-, inst, hf, hp⟩ := discoverServices_lookup_some client parse n u hn
    exact ⟨inst, hf, hp⟩

/-- Witness for C15, amended: the instance of `user-service` at `10.0.0.5:8081` is
stored with the scheme `http` and the host `10.0.0.5:8081`. -/
theorem discoverServices_stores_parsed_location_witness :
    discoverServices (sampleClient "10.0.0.5" 8081) plainParse [] =
      [("user-service", ⟨"http", "10.0.0.5:8081", ""⟩)] ∧
    URL.Hostname ⟨"http", "10.0.0.5:8081", ""⟩ = "10.0.0.5" ∧
    (discoverServices (sampleClient "10.0.0.5" 8081) plainParse []).lookup "user-service" =
      some ⟨"http", "10.0.0.5" ++ ":" ++ toString (8081 : Int), ""⟩ :=
  ⟨by decide, by decide,
    (discoverServices_stores_parsed_location (sampleClient "10.0.0.5" 8081) plainParse
      ["consul", "user-service"] "user-service" "10.0.0.5" 8081
      (by
        intro a p _ _
        have e : "http://" ++ a ++ ":" ++ toString p = "http://" ++ (a ++ ":" ++ toString p) := by
          simp [String.append_assoc]
        rw [e]
        simp [plainParse, strings.HasPrefix_append, strings.TrimPrefix_append])
      rfl (by decide) (by decide) (by decide) (by decide) (by decide)).1⟩

/-! ## The answers to errors -/

/-- Counterexample to C16 as stated: with a backend that cannot be reached, the
answer to `/api/users/42` is the one of the proxy's default error handler,
status 502 with an empty body, which is not a JSON object. -/
theorem proxy_failure_answer_not_json :
    (proxyHandler (NewSingleHostReverseProxy (fun _ => none))
      (sampleState userRegistry "/api/users/42" [])).c.Writer = [⟨502, .raw ""⟩] ∧
    ∀ obj : H, Body.raw "" ≠ Body.json obj :=
  ⟨by decide, fun _ h => Body.noConfusion h⟩

/-- C16, amended: every error that `authMiddleware` and `proxyHandler` answer
themselves is a JSON body with the one field `error` and the status of its
kind: missing header 401, wrong scheme 401, invalid or expired token 401, path
too short 400, unknown service 503.  A backend that cannot be reached is
answered by the default error handler of the reverse proxy, with status 502 and
an empty body. -/
theorem error_answers (P : jwt.Primitives) (now : Int) (s : State) :
    (s.c.GetHeader "Authorization" = "" →
      ∀ next, (authMiddleware P now next s).c.Writer =
        s.c.Writer ++ [⟨401, .json [("error", "Authorization header required")]⟩]) ∧
    (s.c.GetHeader "Authorization" ≠ "" →
      strings.HasPrefix (s.c.GetHeader "Authorization") "Bearer " = false →
      ∀ next, (authMiddleware P now next s).c.Writer =
        s.c.Writer ++ [⟨401, .json [("error", "Bearer token required")]⟩]) ∧
    (∀ t, s.c.GetHeader "Authorization" = "Bearer " ++ t →
      (∀ tok, jwt.ParseWithClaims P now t (fun _ => .ok s.jwtSecret) = .ok tok →
        tok.Valid = false) →
      ∀ next, (authMiddleware P now next s).c.Writer =
        s.c.Writer ++ [⟨401, .json [("error", "Invalid or expired token")]⟩]) ∧
    (route s.c.Request.URL.Path = none →
      ∀ proxy, (proxyHandler proxy s).c.Writer =
        s.c.Writer ++ [⟨400, .json [("error", "Invalid request path")]⟩]) ∧
    (∀ name, route s.c.Request.URL.Path = some name →
      s.serviceRegistry.lookup name = none →
      ∀ proxy, (proxyHandler proxy s).c.Writer =
        s.c.Writer ++ [⟨503, .json [("error", notAvailable name)]⟩]) ∧
    (∀ name target transport, route s.c.Request.URL.Path = some name →
      s.serviceRegistry.lookup name = some target →
      (∀ r, transport r = none) →
      (proxyHandler (NewSingleHostReverseProxy transport) s).c.Writer =
        s.c.Writer ++ [⟨502, .raw ""⟩]) := by
  refine ⟨?_, ?_, ?_, ?_, ?_, ?_⟩
  · intro h next
    simp [authMiddleware, h, StatusUnauthorized, Context.JSON, Context.Abort]
  · intro h0 h1 next
    simp [authMiddleware, h0, h1, StatusUnauthorized, Context.JSON, Context.Abort]
  · intro t ht hfail next
    rw [authMiddleware_of_failed ht hfail]
    rfl
  · intro h proxy
    simp [proxyHandler, h, StatusBadRequest, Context.JSON]
  · intro name h hreg proxy
    simp [proxyHandler, h, hreg, StatusServiceUnavailable, Context.JSON]
  · intro name target transport h hreg htr
    simp [proxyHandler, h, hreg, NewSingleHostReverseProxy, htr, StatusBadGateway,
      Context.setPath]

/-- Witness for C16, amended: the six kinds of error on sample requests. -/
theorem error_answers_witness :
    (authMiddleware samplePrimitives 50 (proxyHandler echoProxy)
      (sampleState userRegistry "/api/users/42" [])).c.Writer =
      [⟨401, .json [("error", "Authorization header required")]⟩] ∧
    (authMiddleware samplePrimitives 50 (proxyHandler echoProxy)
      (sampleState userRegistry "/api/users/42" ["Basic dXNlcg=="])).c.Writer =
      [⟨401, .json [("error", "Bearer token required")]⟩] ∧
    (authMiddleware samplePrimitives 50 (proxyHandler echoProxy)
      (sampleState userRegistry "/api/users/42" ["Bearer h256.cnbf.sig"])).c.Writer =
      [⟨401, .json [("error", "Invalid or expired token")]⟩] ∧
    (proxyHandler echoProxy (sampleState userRegistry "/api" [])).c.Writer =
      [⟨400, .json [("error", "Invalid request path")]⟩] ∧
    (proxyHandler echoProxy (sampleState userRegistry "/api/chat/1" [])).c.Writer =
      [⟨503, .json [("error", "Service 'chat-service' not available")]⟩] ∧
    (proxyHandler (NewSingleHostReverseProxy (fun _ => none))
      (sampleState userRegistry "/api/users/42" [])).c.Writer = [] ++ [⟨502, .raw ""⟩] :=
  ⟨by decide, by decide, by decide, by decide, by decide,
    (error_answers samplePrimitives 50 (sampleState userRegistry "/api/users/42" [])).2.2.2.2.2
      "user-service" ⟨"http", "10.0.0.5:8081", ""⟩ (fun _ => none) (by decide) (by decide)
      (fun _ => rfl)⟩

/-! ## Paths under `/api/` and the routes of the gateway -/

theorem strings.splitChars_ne_nil (sep : Char) (l : List Char) :
    strings.splitChars sep l ≠ [] := by
  cases l with
  | nil => simp [strings.splitChars]
  | cons c cs =>
    unfold strings.splitChars
    split
    · simp
    · split <;> simp

theorem strings.splitChars_sep_cons (sep : Char) (cs : List Char) :
    strings.splitChars sep (sep :: cs) = [] :: strings.splitChars sep cs := by
  simp [strings.splitChars]

theorem strings.splitChars_cons_of_ne {sep c : Char} (h : c ≠ sep) (cs : List Char) :
    ∃ seg rest, strings.splitChars sep cs = seg :: rest ∧
      strings.splitChars sep (c :: cs) = (c :: seg) :: rest := by
  cases hs : strings.splitChars sep cs with
  | nil => exact absurd hs (strings.splitChars_ne_nil sep cs)
  | cons seg rest =>
    refine ⟨seg, rest, rfl, ?_⟩
    rw [strings.splitChars, if_neg h, hs]

theorem strings.splitChars_head_nil {sep : Char} {l : List Char} {r : List Char}
    {rest : List (List Char)} (h : strings.splitChars sep l = [] :: r :: rest) :
    ∃ cs, l = sep :: cs ∧ strings.splitChars sep cs = r :: rest := by
  cases l with
  | nil => simp [strings.splitChars] at h
  | cons c cs =>
    by_cases hc : c = sep
    · subst hc
      rw [strings.splitChars_sep_cons] at h
      exact ⟨cs, rfl, by simpa using h⟩
    · obtain ⟨seg, rest1, -, h2⟩ := strings.splitChars_cons_of_ne hc cs
      rw [h2] at h
      simp at h

theorem strings.splitChars_head_cons {sep c : Char} {l seg : List Char}
    {rest : List (List Char)} (h : strings.splitChars sep l = (c :: seg) :: rest) :
    ∃ cs, l = c :: cs ∧ strings.splitChars sep cs = seg :: rest := by
  cases l with
  | nil => simp [strings.splitChars] at h
  | cons d cs =>
    by_cases hd : d = sep
    · subst hd
      rw [strings.splitChars_sep_cons] at h
      simp at h
    · obtain ⟨seg1, rest1, h1, h2⟩ := strings.splitChars_cons_of_ne hd cs
      rw [h2] at h
      simp only [List.cons.injEq] at h
      obtain ⟨⟨hdc, hseg⟩, hrest⟩ := h
      subst hdc hseg hrest
      exact ⟨cs, rfl, h1⟩

theorem strings.Split_of_api_prefix {path : String}
    (h : strings.HasPrefix path "/api/" = true) :
    ∃ r rest, strings.Split path '/' = "" :: "api" :: r :: rest := by
  unfold strings.HasPrefix at h
  obtain ⟨t, ht⟩ := List.isPrefixOf_iff_prefix.mp h
  have hd : "/api/".data = ['/', 'a', 'p', 'i', '/'] := by decide
  rw [hd] at ht
  cases hs : strings.splitChars '/' t with
  | nil => exact absurd hs (strings.splitChars_ne_nil '/' t)
  | cons seg rest =>
    refine ⟨String.mk seg, rest.map String.mk, ?_⟩
    have e : strings.splitChars '/' path.data = [] :: ['a', 'p', 'i'] :: seg :: rest := by
      rw [← ht]
      simp [strings.splitChars, hs]
    simp only [strings.Split, e, List.map_cons]

theorem strings.api_prefix_of_Split {path r : String} {rest : List String}
    (h : strings.Split path '/' = "" :: "api" :: r :: rest) :
    strings.HasPrefix path "/api/" = true := by
  unfold strings.Split at h
  have h1 := congrArg (List.map String.data) h
  simp only [List.map_map, List.map_cons] at h1
  have hid : (String.data ∘ String.mk) = id := by funext l; rfl
  rw [hid, List.map_id] at h1
  obtain ⟨c1, hl1, h2⟩ := strings.splitChars_head_nil h1
  obtain ⟨c2, hl2, h3⟩ := strings.splitChars_head_cons h2
  obtain ⟨c3, hl3, h4⟩ := strings.splitChars_head_cons h3
  obtain ⟨c4, hl4, h5⟩ := strings.splitChars_head_cons h4
  obtain ⟨c5, hl5, -⟩ := strings.splitChars_head_nil h5
  unfold strings.HasPrefix
  have hd : "/api/".data = ['/', 'a', 'p', 'i', '/'] := by decide
  rw [hd, hl1, hl2, hl3, hl4, hl5]
  simp

theorem gin.matchSegments_static {p : String} {ps xs : List String}
    (hstar : strings.HasPrefix p "*" = false) (hcolon : strings.HasPrefix p ":" = false)
    (h : gin.matchSegments (p :: ps) xs = true) :
    ∃ xs1, xs = p :: xs1 ∧ gin.matchSegments ps xs1 = true := by
  cases xs with
  | nil => simp [gin.matchSegments] at h
  | cons x xs1 =>
    simp only [gin.matchSegments, hstar, hcolon, Bool.false_eq_true, if_false,
      Bool.and_eq_true, beq_iff_eq] at h
    exact ⟨xs1, by rw [h.1], h.2⟩

theorem gateway_routes_split :
    ∀ r ∈ publicRoutes ++ protectedRoutes,
      (strings.Split r.Path '/').take 2 = ["", "api"] ∧
      3 ≤ (strings.Split r.Path '/').length := by
  decide

theorem gateway_route_segments {method path : String}
    (h : gin.handles (publicRoutes ++ protectedRoutes) method path = true) :
    ∃ r rest, strings.Split path '/' = "" :: "api" :: r :: rest := by
  unfold gin.handles at h
  obtain ⟨rt, hrt, hm⟩ := List.any_eq_true.mp h
  simp only [Bool.and_eq_true] at hm
  have hmatch := hm.2
  obtain ⟨htake, hlen⟩ := gateway_routes_split rt hrt
  unfold gin.matchPath at hmatch
  generalize strings.Split rt.Path '/' = pat at htake hlen hmatch
  match pat, htake, hlen with
  | p0 :: p1 :: q :: qs, htake, _ =>
    simp only [List.take, List.cons.injEq, and_true] at htake
    obtain ⟨h0, h1⟩ := htake
    subst h0 h1
    obtain ⟨xs1, e1, m1⟩ := gin.matchSegments_static (by decide) (by decide) hmatch
    obtain ⟨xs2, e2, m2⟩ := gin.matchSegments_static (by decide) (by decide) m1
    cases xs2 with
    | nil => simp [gin.matchSegments] at m2
    | cons x rest => exact ⟨x, rest, by rw [e1, e2]⟩

theorem proxyHandler_of_route {proxy : ReverseProxy} {s : State} {name : String}
    (h : route s.c.Request.URL.Path = some name) :
    (s.serviceRegistry.lookup name = none ∧
      proxyHandler proxy s = { s with c := s.c.JSON 503 [("error", notAvailable name)] }) ∨
    (∃ target, s.serviceRegistry.lookup name = some target ∧
      proxyHandler proxy s =
        forwarded proxy s target (strings.TrimPrefix s.c.Request.URL.Path "/api")
          s.c.Request.URL.Path) := by
  cases hreg : s.serviceRegistry.lookup name with
  | none =>
    left
    refine ⟨rfl, ?_⟩
    simp [proxyHandler, h, hreg, StatusServiceUnavailable]
  | some target =>
    right
    refine ⟨target, rfl, ?_⟩
    simp [proxyHandler, h, hreg, forwarded, withPath, Context.setPath]

/-- C17, amended: for each of the five public auth paths, a `POST` request,
whatever its headers (so also without an `Authorization` header), is served by
the chain that holds `proxyHandler` alone; the path resolves to `auth-service`;
when the registry holds `auth-service` the request is forwarded to it with the
path `/auth/<op>`; and `POST /auth/<op>` is a route the auth service registers. -/
theorem public_auth_paths_forwarded (P : jwt.Primitives) (now : Int) (proxy : ReverseProxy)
    (s : State) (op : String) (target : URL)
    (hop : op ∈ ["register", "login", "validate", "refresh", "logout"])
    (hmethod : s.c.Request.Method = "POST")
    (hpath : s.c.Request.URL.Path = "/api/auth/" ++ op)
    (hreg : s.serviceRegistry.lookup "auth-service" = some target) :
    gateway P now proxy s = some (proxyHandler proxy s) ∧
    route ("/api/auth/" ++ op) = some "auth-service" ∧
    proxyHandler proxy s = forwarded proxy s target ("/auth/" ++ op) ("/api/auth/" ++ op) ∧
    gin.handles authService.routes "POST" ("/auth/" ++ op) = true := by
  have hall : ∀ o ∈ ["register", "login", "validate", "refresh", "logout"],
      gin.handles publicRoutes "POST" ("/api/auth/" ++ o) = true ∧
      strings.Split ("/api/auth/" ++ o) '/' = ["", "api", "auth", o] ∧
      strings.TrimPrefix ("/api/auth/" ++ o) "/api" = "/auth/" ++ o ∧
      gin.handles authService.routes "POST" ("/auth/" ++ o) = true := by
    decide
  obtain ⟨hpub, hsplit, htrim, hauth⟩ := hall op hop
  have hname : serviceNameOf "auth" = "auth-service" := by decide
  have hsplit1 : strings.Split s.c.Request.URL.Path '/' = "" :: "api" :: "auth" :: [op] := by
    rw [hpath, hsplit]
  refine ⟨?_, ?_, ?_, hauth⟩
  · simp [gateway, hmethod, hpath, hpub]
  · rw [← hpath, route_of_split hsplit1, hname]
  · have hreg1 : s.serviceRegistry.lookup (serviceNameOf "auth") = some target := by
      rw [hname]; exact hreg
    rw [proxyHandler_of_registered hsplit1 hreg1, hpath, htrim]

/-- Witness for C17, amended: `POST /api/auth/login` without an `Authorization` header is
forwarded as `/auth/login`. -/
theorem public_auth_paths_forwarded_witness :
    ((gateway samplePrimitives 50 echoProxy
      (postState fullRegistry "/api/auth/login" [])).map (fun t => t.c.Writer)) =
      some [⟨200, .raw "/auth/login"⟩] ∧
    gateway samplePrimitives 50 echoProxy (postState fullRegistry "/api/auth/login" []) =
      some (proxyHandler echoProxy (postState fullRegistry "/api/auth/login" [])) ∧
    route ("/api/auth/" ++ "login") = some "auth-service" ∧
    proxyHandler echoProxy (postState fullRegistry "/api/auth/login" []) =
      forwarded echoProxy (postState fullRegistry "/api/auth/login" [])
        ⟨"http", "auth-service:8080", ""⟩ ("/auth/" ++ "login") ("/api/auth/" ++ "login") ∧
    gin.handles authService.routes "POST" ("/auth/" ++ "login") = true :=
  ⟨by decide,
    public_auth_paths_forwarded samplePrimitives 50 echoProxy
      (postState fullRegistry "/api/auth/login" []) "login" ⟨"http", "auth-service:8080", ""⟩
      (by decide) (by decide) (by decide) (by decide)⟩

/-- The four backends whose routes follow the convention: apart from `/health`,
every route they register lies under the resource segment the gateway serves
them under. -/
theorem conventional_backends_routes :
    ∀ b ∈ backends, b.1 ∈ ["auth", "users", "properties", "projects"] →
      ∀ r ∈ b.2.2, r.Path = "/health" ∨ strings.HasPrefix r.Path ("/" ++ b.1) = true := by
  decide

/-- C18, the code at the failing inputs: a request `GET /api/gallery/images/img-1`
with a valid token is forwarded to `gallery-service` with the path
`/gallery/images/img-1`, and a request `POST /api/chat/conversations` to
`chat-service` with the path `/chat/conversations`; no route of the gallery
service takes the first path and none of its routes lies under `/gallery`, no
route of the chat service takes the second and none lies under `/chat`.  The
user service does take `/users/42`, and the gallery service would take
`/images/img-1`. -/
theorem gallery_and_chat_paths_unrouted :
    (gateway samplePrimitives 50 echoProxy
      (sampleState fullRegistry "/api/gallery/images/img-1" ["Bearer h256.cgood.sig"])).map
        (fun t => t.c.Writer) = some [⟨200, .raw "/gallery/images/img-1"⟩] ∧
    route "/api/gallery/images/img-1" = some galleryService.SERVICE_NAME ∧
    galleryService.routes.any (fun r => gin.matchPath r.Path "/gallery/images/img-1") = false ∧
    galleryService.routes.any (fun r => strings.HasPrefix r.Path "/gallery") = false ∧
    (gateway samplePrimitives 50 echoProxy
      (postState fullRegistry "/api/chat/conversations" ["Bearer h256.cgood.sig"])).map
        (fun t => t.c.Writer) = some [⟨200, .raw "/chat/conversations"⟩] ∧
    route "/api/chat/conversations" = some chatService.SERVICE_NAME ∧
    chatService.routes.any (fun r => gin.matchPath r.Path "/chat/conversations") = false ∧
    chatService.routes.any (fun r => strings.HasPrefix r.Path "/chat") = false ∧
    gin.handles userService.routes "GET" "/users/42" = true ∧
    gin.handles galleryService.routes "GET" "/images/img-1" = true ∧
    gin.handles chatService.routes "POST" "/conversations" = true := by
  decide

/-- C19: for each of the six resource segments `auth`, `users`, `properties`,
`projects`, `gallery` and `chat`, the service name `proxyHandler` derives is the
name the backend registers with the discovery backend, and that name ends in
`-service`, so that discovery keeps it. -/
theorem naming_table_matches_backends :
    backends.map (fun b => b.1) =
      ["auth", "users", "properties", "projects", "gallery", "chat"] ∧
    backends.map (fun b => b.2.1) =
      ["auth-service", "user-service", "property-service", "project-service",
       "gallery-service", "chat-service"] ∧
    ∀ b ∈ backends,
      serviceNameOf b.1 = b.2.1 ∧
      route ("/api/" ++ b.1 ++ "/x") = some b.2.1 ∧
      strings.HasSuffix b.2.1 "-service" = true := by
  decide

/-- C20: for every path that begins with `/api/`, splitting on `/` gives at least
three segments, so the routing step finds a service name and `proxyHandler`
either answers 503 for that name or forwards the request: it never answers 400.
Every path that a route of the gateway takes begins with `/api/`. -/
theorem api_paths_never_400 (path : String) (h : strings.HasPrefix path "/api/" = true) :
    3 ≤ (strings.Split path '/').length ∧
    (∃ name, route path = some name ∧
      ∀ (proxy : ReverseProxy) (s : State), s.c.Request.URL.Path = path →
        (s.serviceRegistry.lookup name = none ∧
          proxyHandler proxy s =
            { s with c := s.c.JSON 503 [("error", notAvailable name)] }) ∨
        (∃ target, s.serviceRegistry.lookup name = some target ∧
          proxyHandler proxy s =
            forwarded proxy s target (strings.TrimPrefix path "/api") path)) ∧
    ∀ method p, gin.handles (publicRoutes ++ protectedRoutes) method p = true →
      strings.HasPrefix p "/api/" = true := by
  obtain ⟨r, rest, hsplit⟩ := strings.Split_of_api_prefix h
  refine ⟨by rw [hsplit]; simp, ⟨serviceNameOf r, route_of_split hsplit, ?_⟩, ?_⟩
  · intro proxy s hs
    subst hs
    exact proxyHandler_of_route (route_of_split hsplit)
  · intro method p hp
    obtain ⟨r1, rest1, h1⟩ := gateway_route_segments hp
    exact strings.api_prefix_of_Split h1

/-- Witness for C20: `/api/` itself begins with `/api/`; it has three segments
and gets 503, not 400. -/
theorem api_paths_never_400_witness :
    (proxyHandler echoProxy (sampleState userRegistry "/api/" [])).c.Writer =
      [⟨503, .json [("error", "Service '-service' not available")]⟩] ∧
    3 ≤ (strings.Split "/api/" '/').length :=
  ⟨by decide, (api_paths_never_400 "/api/" (by decide)).1⟩

theorem strings.eq_append_of_HasPrefix {s p : String} (h : strings.HasPrefix s p = true) :
    ∃ t : String, s = p ++ t := by
  unfold strings.HasPrefix at h
  obtain ⟨t, ht⟩ := List.isPrefixOf_iff_prefix.mp h
  exact ⟨String.mk t, String.ext (by simp [String.data_append, ht])⟩

/-- C3: for every path that begins with `/api/`, as every path does that a route
of the gateway takes, and whose derived service name is in the registry, the
path handed to the reverse proxy is the original path without its one leading
segment `/api` and with nothing else changed: it begins with `/`, and `/api`
followed by it is the original path. -/
theorem proxyHandler_strips_api_segment (proxy : ReverseProxy) (s : State) (name : String)
    (target : URL)
    (hpre : strings.HasPrefix s.c.Request.URL.Path "/api/" = true)
    (hname : route s.c.Request.URL.Path = some name)
    (hreg : s.serviceRegistry.lookup name = some target) :
    (∃ fwd : String, "/api" ++ fwd = s.c.Request.URL.Path ∧
      strings.HasPrefix fwd "/" = true ∧
      proxyHandler proxy s = forwarded proxy s target fwd s.c.Request.URL.Path) ∧
    ∀ method p, gin.handles (publicRoutes ++ protectedRoutes) method p = true →
      strings.HasPrefix p "/api/" = true := by
  constructor
  · obtain ⟨t, ht⟩ := strings.eq_append_of_HasPrefix hpre
    have e : ("/api/" : String) = "/api" ++ "/" := by decide
    have hp : s.c.Request.URL.Path = "/api" ++ ("/" ++ t) := by
      rw [ht, e, String.append_assoc]
    have htrim : strings.TrimPrefix s.c.Request.URL.Path "/api" = "/" ++ t := by
      rw [hp, strings.TrimPrefix_append]
    refine ⟨"/" ++ t, hp.symm, strings.HasPrefix_append "/" t, ?_⟩
    rcases @proxyHandler_of_route proxy s name hname with ⟨hnone, -⟩ | ⟨tg, htg, hfw⟩
    · rw [hreg] at hnone
      cases hnone
    · rw [hreg] at htg
      cases htg
      rw [hfw, htrim]
  · intro method p hp
    obtain ⟨r1, rest1, h1⟩ := gateway_route_segments hp
    exact strings.api_prefix_of_Split h1

/-- Witness for C3: `/api/users/42` is forwarded as `/users/42`, and `/api/api/x`
as `/api/x`. -/
theorem proxyHandler_strips_api_segment_witness :
    (proxyHandler echoProxy (sampleState userRegistry "/api/users/42" [])).c.Writer =
      [⟨200, .raw "/users/42"⟩] ∧
    (proxyHandler echoProxy
      (sampleState [("api-service", ⟨"http", "h:1", ""⟩)] "/api/api/x" [])).c.Writer =
      [⟨200, .raw "/api/x"⟩] ∧
    ∃ fwd : String, "/api" ++ fwd = "/api/users/42" ∧
      strings.HasPrefix fwd "/" = true ∧
      proxyHandler echoProxy (sampleState userRegistry "/api/users/42" []) =
        forwarded echoProxy (sampleState userRegistry "/api/users/42" [])
          ⟨"http", "10.0.0.5:8081", ""⟩ fwd "/api/users/42" :=
  ⟨by decide, by decide,
    (proxyHandler_strips_api_segment echoProxy (sampleState userRegistry "/api/users/42" [])
      "user-service" ⟨"http", "10.0.0.5:8081", ""⟩ (by decide) (by decide) (by decide)).1⟩

/-- Counterexample to C17 as stated: `POST /api/auth/login` without an
`Authorization` header, served while the registry holds no `auth-service` (as
after a discovery that found none), reaches `proxyHandler` and resolves to
`auth-service`, but is not forwarded: the answer is 503. -/
theorem public_auth_path_unregistered_not_forwarded :
    gateway samplePrimitives 50 echoProxy (postState [] "/api/auth/login" []) =
      some (proxyHandler echoProxy (postState [] "/api/auth/login" [])) ∧
    route "/api/auth/login" = some "auth-service" ∧
    (proxyHandler echoProxy (postState [] "/api/auth/login" [])).c.Writer =
      [⟨503, .json [("error", "Service 'auth-service' not available")]⟩] ∧
    (proxyHandler echoProxy
      (postState (discoverServices downClient sampleParse []) "/api/auth/login" [])).c.Writer =
      [⟨503, .json [("error", "Service 'auth-service' not available")]⟩] := by
  decide

end FlipApp
